import Mathlib

/-!
# Verified model of `PollingServiceManager` (polling-service-manager)

Shallow embedding of `src/index.ts` (`PollingServiceManager`).  Jobs run a
trigger → poll-loop → complete state machine driven by `setTimeout` timers.

Modelling conventions:

* JavaScript values produced by the caller-supplied `triggerFn` / `pollFn` /
  `completeFn` are modelled by `JSValue` (booleans, numbers, strings and
  opaque objects), with JavaScript truthiness `JSValue.truthy`.  An absent
  (`undefined`) field is `Option.none`.
* The caller-supplied functions themselves are opaque asynchronous
  producers; their outcomes (resolution value or rejection error) are
  injected by the environment when the corresponding `await` resumes.
* The JavaScript event loop is modelled explicitly: `SysState.tasks` holds
  the outstanding continuations (a pending `setTimeout` timer, or a
  suspended `await` of trigger / poll / complete).  An `Action` picks one
  continuation and runs the corresponding source code up to its next
  suspension point; an `Action` whose continuation is not outstanding is a
  no-op (it is not realisable on that state).
* `async` function bodies run synchronously up to their first `await`
  (JavaScript semantics): `startJob` therefore already executes the prefix
  of `executeJobTrigger` that sets the state to `POLLING` and invokes
  `triggerFn`.
* Callback invocations (`onComplete` / `onError`) and invocations of the
  three stage functions are recorded as `Event`s.  A callback that throws is
  modelled by a `cbThrows` flag on the action; the source wraps the call in
  `try { ... } catch` and only logs, which is mirrored by emitting a
  `callbackThrew` event and continuing.
* `jobs: Map<string, Job>` is an association list with unique keys;
  in-place mutation of a `Job` object found in the map is modelled by
  `updateJob` (replacing the entry).  `generateJobId` (Date.now + random)
  is modelled by passing the fresh id to `startJob`; freshness is a
  hypothesis where it matters.
-/

namespace PollingSvc

/-- A JavaScript value returned by a caller-supplied stage function.
`objV` stands for any always-truthy object. -/
inductive JSValue where
  | boolV (b : Bool)
  | numV (n : Int)
  | strV (s : String)
  | objV (tag : String)
deriving DecidableEq, Repr

/-- JavaScript truthiness for `JSValue` (`false`, `0`, `""` are falsy). -/
def JSValue.truthy : JSValue → Bool
  | .boolV b => b
  | .numV n => decide (n ≠ 0)
  | .strV s => decide (s ≠ "")
  | .objV _ => true

/-- Truthiness of a possibly-`undefined` value: `undefined` is falsy.
This is the meaning of the source's `!job.triggerResult` / `!job.pollResult`
tests on an optional field. -/
def jsTruthy : Option JSValue → Bool
  | none => false
  | some v => v.truthy

/-- `enum JobState` from the source. -/
inductive JobState where
  | PENDING
  | POLLING
  | COMPLETED
  | FAILED
  | ABORTED
deriving DecidableEq, Repr

/-- Errors.  `pollingError` is the source's `PollingError` class,
`pollingAbortError` its `PollingAbortError` subclass, and `jsError` any
other `Error` thrown or rejected by a caller-supplied function. -/
inductive JobError where
  | pollingError (msg : String)
  | pollingAbortError (msg : String)
  | jsError (msg : String)
deriving DecidableEq, Repr

/-- The value of `await job.pollFn(...)`: `{done: boolean, result?: U}`.
`result = none` models `result === undefined`. -/
structure PollResponse where
  done : Bool
  result : Option JSValue
deriving DecidableEq, Repr

/-- The internal `Job<T, U, V>` record of the source.  The three stage
functions are opaque (their outcomes are environment-injected), so only the
presence of the two optional callbacks is kept. -/
structure Job where
  id : String
  state : JobState
  hasOnComplete : Bool
  hasOnError : Bool
  triggerResult : Option JSValue := none
  pollResult : Option JSValue := none
  finalResult : Option JSValue := none
  retryCount : Nat := 0
  error : Option JobError := none
  timerId : Option Nat := none
deriving DecidableEq, Repr

/-- An outstanding continuation of the event loop:
a scheduled `setTimeout` timer, or a suspended `await` of the trigger,
poll or complete stage for the named job. -/
inductive Task where
  | triggerWait (jobId : String)
  | timer (tid : Nat) (jobId : String)
  | pollWait (jobId : String)
  | completeWait (jobId : String)
deriving DecidableEq, Repr

/-- The job a continuation belongs to. -/
def Task.jobOf : Task → String
  | .triggerWait j => j
  | .timer _ j => j
  | .pollWait j => j
  | .completeWait j => j

/-- Observable events: invocations of the three stage functions and of the
two callbacks, plus a callback raising (which the source catches and logs). -/
inductive Event where
  | triggerInvoked (jobId : String)
  | pollInvoked (jobId : String)
  | completeInvoked (jobId : String) (arg : JSValue)
  | onCompleteCalled (jobId : String) (result : JSValue)
  | onErrorCalled (jobId : String) (e : JobError)
  | callbackThrew (jobId : String)
deriving DecidableEq, Repr

/-- The job an event belongs to. -/
def Event.jobOf : Event → String
  | .triggerInvoked j => j
  | .pollInvoked j => j
  | .completeInvoked j _ => j
  | .onCompleteCalled j _ => j
  | .onErrorCalled j _ => j
  | .callbackThrew j => j

/-- Manager configuration (`PollingServiceManagerOptions` with defaults
applied; `logLevel` only affects logging and is omitted). -/
structure Config where
  pollingInterval : Nat := 5000
  maxRetryAttempts : Nat := 10
deriving DecidableEq, Repr

/-- Whole-system state: the manager's `jobs` map (association list with
unique keys), the outstanding event-loop continuations, and the source of
fresh timer ids. -/
structure SysState where
  jobs : List (String × Job) := []
  tasks : List Task := []
  nextTimer : Nat := 0
deriving DecidableEq, Repr

/-- `this.jobs.get(jobId)`. -/
def lookupJob : List (String × Job) → String → Option Job
  | [], _ => none
  | (k, v) :: rest, key => if k = key then some v else lookupJob rest key

/-- `this.jobs.get(jobId)` on a system state. -/
def findJob (s : SysState) (jobId : String) : Option Job :=
  lookupJob s.jobs jobId

/-- In-place mutation of the job object stored under an existing key
(JavaScript object mutation seen through the map). -/
def updateJob : List (String × Job) → String → Job → List (String × Job)
  | [], _, _ => []
  | (k, v) :: rest, key, j =>
    if k = key then (k, j) :: rest else (k, v) :: updateJob rest key j

/-- Replace the job stored under `jobId` in the system state. -/
def setJob (s : SysState) (jobId : String) (j : Job) : SysState :=
  { s with jobs := updateJob s.jobs jobId j }

/-- `this.jobs.set(jobId, job)`: overwrite or append. -/
def mapSet : List (String × Job) → String → Job → List (String × Job)
  | [], key, j => [(key, j)]
  | (k, v) :: rest, key, j =>
    if k = key then (k, j) :: rest else (k, v) :: mapSet rest key j

/-- Remove the first occurrence of a continuation (an `await` resuming or a
timer firing consumes it). -/
def removeTask : List Task → Task → List Task
  | [], _ => []
  | q :: rest, p => if q = p then rest else q :: removeTask rest p

/-- Is this continuation outstanding? -/
def hasTask : List Task → Task → Bool
  | [], _ => false
  | q :: rest, p => if q = p then true else hasTask rest p

/-- `clearTimeout(tid)`: the timer with this handle will never fire. -/
def removeTimer (tid : Nat) : List Task → List Task
  | [] => []
  | .timer t j :: rest =>
    if t = tid then removeTimer tid rest else .timer t j :: removeTimer tid rest
  | q :: rest => q :: removeTimer tid rest

/-- The outstanding continuations belonging to one job. -/
def tasksFor (j : String) : List Task → List Task
  | [] => []
  | p :: rest => if p.jobOf = j then p :: tasksFor j rest else tasksFor j rest

/-- The events belonging to one job. -/
def eventsFor (j : String) : List Event → List Event
  | [] => []
  | e :: rest => if e.jobOf = j then e :: eventsFor j rest else eventsFor j rest

/-- The job whose timer has handle `tid`, if that timer is outstanding. -/
def timerOwner (tid : Nat) : List Task → Option String
  | [] => none
  | .timer t j :: rest => if t = tid then some j else timerOwner tid rest
  | _ :: rest => timerOwner tid rest

/-- The handle of an outstanding timer belonging to job `j`, if any. -/
def timerFor (j : String) : List Task → Option Nat
  | [] => none
  | .timer t j' :: rest => if j' = j then some t else timerFor j rest
  | _ :: rest => timerFor j rest

/-!
## The source functions

Each definition mirrors one (segment of one) method of
`PollingServiceManager`, cut at `await` suspension points.
-/

/-- `handleJobError(jobId, error)`: look the job up (no-op when absent),
set `state = FAILED` and store the error, then call `onError` inside
`try/catch` when provided.  The final
`if (error instanceof PollingAbortError) return;` has no observable effect
(nothing follows it) and is not represented. -/
def handleJobError (s : SysState) (jobId : String) (error : JobError)
    (cbThrows : Bool) : SysState × List Event :=
  match findJob s jobId with
  | none => (s, [])
  | some job =>
    let s' := setJob s jobId { job with state := .FAILED, error := some error }
    if job.hasOnError then
      (s', .onErrorCalled jobId error ::
            (if cbThrows then [.callbackThrew jobId] else []))
    else (s', [])

/-- `executeJobPolling(jobId)`: if the job exists and is `POLLING`,
schedule a `setTimeout` timer (fresh handle from `nextTimer`) and store the
handle in `job.timerId`; otherwise do nothing. -/
def executeJobPolling (s : SysState) (jobId : String) : SysState :=
  match findJob s jobId with
  | none => s
  | some job =>
    if job.state = .POLLING then
      let tid := s.nextTimer
      let s' := setJob s jobId { job with timerId := some tid }
      { s' with tasks := s'.tasks ++ [.timer tid jobId], nextTimer := tid + 1 }
    else s

/-- The synchronous prefix of `executeJobTrigger(jobId)`: look the job up
(no-op when absent), set `state = POLLING`, then invoke `triggerFn` and
suspend at `await`. -/
def executeJobTriggerStart (s : SysState) (jobId : String) :
    SysState × List Event :=
  match findJob s jobId with
  | none => (s, [])
  | some job =>
    let s' := setJob s jobId { job with state := .POLLING }
    ({ s' with tasks := s'.tasks ++ [.triggerWait jobId] },
     [.triggerInvoked jobId])

/-- The rest of `executeJobTrigger` after `await job.triggerFn()` resumes:
on resolution store `triggerResult` and call `executeJobPolling`; on
rejection the surrounding `catch` calls `handleJobError`. -/
def executeJobTriggerResume (s : SysState) (jobId : String)
    (outcome : Except JobError JSValue) (cbThrows : Bool) :
    SysState × List Event :=
  match findJob s jobId with
  | none => (s, [])
  | some job =>
    match outcome with
    | .ok v => (executeJobPolling (setJob s jobId { job with triggerResult := some v }) jobId, [])
    | .error e => handleJobError s jobId e cbThrows

/-- The job object literal built by `startJob`: a fresh record in
`PENDING` with `retryCount: 0` and no results. -/
def createJob (jobId : String) (hasOnComplete hasOnError : Bool) : Job :=
  { id := jobId, state := .PENDING, hasOnComplete, hasOnError }

/-- `startJob(...)`: create the job record in `PENDING`, `jobs.set` it,
then call `executeJobTrigger` whose body runs synchronously up to its first
`await` (so the state is already `POLLING` when `startJob` returns the id).
The fresh id from `generateJobId` is a parameter. -/
def startJob (s : SysState) (jobId : String)
    (hasOnComplete hasOnError : Bool) : SysState × String × List Event :=
  let job : Job := createJob jobId hasOnComplete hasOnError
  let s' : SysState := { s with jobs := mapSet s.jobs jobId job }
  let (s'', evs) := executeJobTriggerStart s' jobId
  (s'', jobId, evs)

/-- `abortJob(jobId)`: `false` without side effects when the job is absent;
otherwise `clearTimeout(job.timerId)` when set, force `state = ABORTED`
and return `true`.  No callback is invoked (the empty event list). -/
def abortJob (s : SysState) (jobId : String) :
    SysState × Bool × List Event :=
  match findJob s jobId with
  | none => (s, false, [])
  | some job =>
    let s' :=
      match job.timerId with
      | some tid => { s with tasks := removeTimer tid s.tasks }
      | none => s
    (setJob s' jobId { job with state := .ABORTED }, true, [])

/-- `getJobState(jobId)`: pure lookup (`null` for an unknown id). -/
def getJobState (s : SysState) (jobId : String) : Option JobState :=
  (findJob s jobId).map Job.state

/-- The body of the `setTimeout` callback in `executeJobPolling`, up to
`await job.pollFn(job.triggerResult)`: a falsy `triggerResult` throws
`new PollingError('Trigger result is undefined')` (caught by the
surrounding `try`, which calls `handleJobError`); otherwise `pollFn` is
invoked and the body suspends.  The callback closes over the job object;
since a timer only ever fires for a registered job, the closure is
modelled by the map lookup. -/
def pollTimerFire (s : SysState) (jobId : String) (cbThrows : Bool) :
    SysState × List Event :=
  match findJob s jobId with
  | none => (s, [])
  | some job =>
    if jsTruthy job.triggerResult then
      ({ s with tasks := s.tasks ++ [.pollWait jobId] }, [.pollInvoked jobId])
    else
      handleJobError s jobId (.pollingError "Trigger result is undefined") cbThrows

/-- The synchronous prefix of `executeJobCompletion(jobId)` (reached right
after the poll branch stored `pollResult`): look the job up (no-op when
absent); a falsy `pollResult` throws
`new PollingError('Poll result is undefined')` (caught: `handleJobError`);
otherwise invoke `completeFn(job.pollResult)` and suspend at `await`. -/
def executeJobCompletionStart (s : SysState) (jobId : String)
    (cbThrows : Bool) : SysState × List Event :=
  match findJob s jobId with
  | none => (s, [])
  | some job =>
    match job.pollResult with
    | some u =>
      if u.truthy then
        ({ s with tasks := s.tasks ++ [.completeWait jobId] },
         [.completeInvoked jobId u])
      else
        handleJobError s jobId (.pollingError "Poll result is undefined") cbThrows
    | none =>
      handleJobError s jobId (.pollingError "Poll result is undefined") cbThrows

/-- The rest of `executeJobCompletion` after `await job.completeFn(...)`
resumes: on resolution store `finalResult`, set `state = COMPLETED` and
call `onComplete` inside `try/catch` when provided; on rejection the
surrounding `catch` calls `handleJobError`. -/
def executeJobCompletionResume (s : SysState) (jobId : String)
    (outcome : Except JobError JSValue) (cbThrows : Bool) :
    SysState × List Event :=
  match findJob s jobId with
  | none => (s, [])
  | some job =>
    match outcome with
    | .ok v =>
      let s' := setJob s jobId
        { job with finalResult := some v, state := .COMPLETED }
      if job.hasOnComplete then
        (s', .onCompleteCalled jobId v ::
              (if cbThrows then [.callbackThrew jobId] else []))
      else (s', [])
    | .error e => handleJobError s jobId e cbThrows

/-- The rest of the `setTimeout` callback after `await job.pollFn(...)`
resumes.  On rejection: `handleJobError`.  On resolution
`{done, result}`: if `done && result !== undefined`, store `pollResult`
and go to `executeJobCompletion`; otherwise increment `retryCount`, throw
the retry-ceiling `PollingError` when it exceeds `maxRetryAttempts`
(caught: `handleJobError`), else schedule the next poll. -/
def pollResume (cfg : Config) (s : SysState) (jobId : String)
    (outcome : Except JobError PollResponse) (cbThrows : Bool) :
    SysState × List Event :=
  match findJob s jobId with
  | none => (s, [])
  | some job =>
    match outcome with
    | .error e => handleJobError s jobId e cbThrows
    | .ok resp =>
      if resp.done && resp.result.isSome then
        executeJobCompletionStart
          (setJob s jobId { job with pollResult := resp.result }) jobId cbThrows
      else
        let job' := { job with retryCount := job.retryCount + 1 }
        let s' := setJob s jobId job'
        if job'.retryCount > cfg.maxRetryAttempts then
          let n := cfg.maxRetryAttempts
          handleJobError s' jobId
            (.pollingError s!"Exceeded maximum retry attempts ({n})") cbThrows
        else
          (executeJobPolling s' jobId, [])

/-!
## The event loop

An `Action` selects an outstanding continuation (or a public entry point)
and runs it.  Resuming an `await` or firing a timer first consumes the
corresponding `Task`; an action whose continuation is not outstanding is a
no-op.
-/

/-- One event-loop turn: a public entry point (`start`, `abort`) or the
resumption of an outstanding continuation with an environment-chosen
outcome.  `cbThrows` says whether a callback invoked during this turn
throws. -/
inductive Action where
  | start (jobId : String) (hasOnComplete hasOnError : Bool)
  | abort (jobId : String)
  | resolveTrigger (jobId : String) (outcome : Except JobError JSValue)
      (cbThrows : Bool)
  | fireTimer (tid : Nat) (cbThrows : Bool)
  | resolvePoll (jobId : String) (outcome : Except JobError PollResponse)
      (cbThrows : Bool)
  | resolveComplete (jobId : String) (outcome : Except JobError JSValue)
      (cbThrows : Bool)

/-- Run one event-loop turn. -/
def step (cfg : Config) (s : SysState) : Action → SysState × List Event
  | .start jobId hc he =>
    let (s', _, evs) := startJob s jobId hc he
    (s', evs)
  | .abort jobId =>
    let (s', _, evs) := abortJob s jobId
    (s', evs)
  | .resolveTrigger jobId outcome cb =>
    if hasTask s.tasks (.triggerWait jobId) then
      executeJobTriggerResume
        { s with tasks := removeTask s.tasks (.triggerWait jobId) }
        jobId outcome cb
    else (s, [])
  | .fireTimer tid cb =>
    match timerOwner tid s.tasks with
    | some jobId =>
      pollTimerFire
        { s with tasks := removeTask s.tasks (.timer tid jobId) } jobId cb
    | none => (s, [])
  | .resolvePoll jobId outcome cb =>
    if hasTask s.tasks (.pollWait jobId) then
      pollResume cfg
        { s with tasks := removeTask s.tasks (.pollWait jobId) }
        jobId outcome cb
    else (s, [])
  | .resolveComplete jobId outcome cb =>
    if hasTask s.tasks (.completeWait jobId) then
      executeJobCompletionResume
        { s with tasks := removeTask s.tasks (.completeWait jobId) }
        jobId outcome cb
    else (s, [])

/-- Run a sequence of event-loop turns, collecting all events. -/
def run (cfg : Config) (s : SysState) : List Action → SysState × List Event
  | [] => (s, [])
  | a :: rest =>
    let (s', evs) := step cfg s a
    let (s'', evs') := run cfg s' rest
    (s'', evs ++ evs')

/-- Drive one job's poll loop: while a timer for the job is outstanding
(and fuel remains), fire it and resolve the resulting poll invocation with
`{done: false}`.  This is the environment of a poll function that always
reports "not done". -/
def runNotDone (cfg : Config) (jobId : String) :
    Nat → SysState → SysState × List Event
  | 0, s => (s, [])
  | k + 1, s =>
    match timerFor jobId s.tasks with
    | none => (s, [])
    | some tid =>
      let r1 := step cfg s (.fireTimer tid false)
      let r2 := step cfg r1.1 (.resolvePoll jobId (.ok ⟨false, none⟩) false)
      let r3 := runNotDone cfg jobId k r2.1
      (r3.1, r1.2 ++ r2.2 ++ r3.2)

/-- Full scenario for the retry-ceiling property: start a job, let its
trigger resolve with `v`, then run up to `k` "not done" poll rounds. -/
def notDoneScenario (cfg : Config) (s : SysState) (jobId : String)
    (hc he : Bool) (v : JSValue) (k : Nat) : SysState × List Event :=
  let r0 := startJob s jobId hc he
  let r1 := step cfg r0.1 (.resolveTrigger jobId (.ok v) false)
  let r2 := runNotDone cfg jobId k r1.1
  (r2.1, r0.2.2 ++ r1.2 ++ r2.2)

/-- The job `j` is in state `st` with no outstanding continuation (no
pending timer and no in-flight trigger/poll/complete call). -/
def quiescentAt (s : SysState) (j : String) (st : JobState) : Prop :=
  (findJob s j).map Job.state = some st ∧ tasksFor j s.tasks = []

/-- Does this action start a job under the given id? -/
def Action.isStartOf : Action → String → Bool
  | .start j _ _, j' => j == j'
  | _, _ => false

/-- Is this action an internal execution step (a trigger / poll /
completion resumption or a timer firing), as opposed to the public
`startJob` / `abortJob` entry points? -/
def Action.isInternal : Action → Bool
  | .start _ _ _ => false
  | .abort _ => false
  | _ => true

/-- Does this action abort the job under the given id? -/
def Action.isAbortOf : Action → String → Bool
  | .abort j, j' => j == j'
  | _, _ => false

/-- The synthesized retry-ceiling error message
(`Exceeded maximum retry attempts (N)`). -/
def retryMsg (n : Nat) : String :=
  s!"Exceeded maximum retry attempts ({n})"

/-- Number of `pollInvoked` events for a job (how many times `pollFn` was
called for it). -/
def countPollInvocations (jobId : String) : List Event → Nat
  | [] => 0
  | .pollInvoked j :: rest =>
    (if j = jobId then 1 else 0) + countPollInvocations jobId rest
  | _ :: rest => countPollInvocations jobId rest

/-- The default configuration (`pollingInterval 5000`,
`maxRetryAttempts 10`). -/
def cfgD : Config := {}

/-- A concrete polling job used by witnesses. -/
def jW : Job :=
  { id := "j", state := .POLLING, hasOnComplete := true, hasOnError := true,
    triggerResult := some (.strV "trk-1") }

/-- A concrete one-job system state used by witnesses. -/
def sW : SysState := { jobs := [("j", jW)] }

/-- A stage failure delivered while the job is registered: the job is
`FAILED` with the causing error attached, and the step's events are
exactly the `onError` delivery (when the callback is present) — in
particular no `onComplete` invocation. -/
def failsWith (r : SysState × List Event) (jobId : String) (job : Job)
    (e : JobError) (cb : Bool) : Prop :=
  findJob r.1 jobId = some { job with state := .FAILED, error := some e } ∧
  r.2 = (if job.hasOnError then
          .onErrorCalled jobId e :: (if cb then [.callbackThrew jobId] else [])
         else []) ∧
  ∀ (j2 : String) (v : JSValue), Event.onCompleteCalled j2 v ∉ r.2

/-!
## Basic lemmas about the registry and the task list
-/

@[simp]
theorem lookupJob_updateJob_self (m : List (String × Job)) (key : String)
    (j : Job) :
    lookupJob (updateJob m key j) key = (lookupJob m key).map fun _ => j := by
  induction m with
  | nil => rfl
  | cons kv rest ih =>
    obtain ⟨k, v⟩ := kv
    by_cases h : k = key <;> simp [updateJob, lookupJob, h, ih]

@[simp]
theorem lookupJob_updateJob_ne (m : List (String × Job)) (key key' : String)
    (j : Job) (h : key' ≠ key) :
    lookupJob (updateJob m key j) key' = lookupJob m key' := by
  induction m with
  | nil => rfl
  | cons kv rest ih =>
    obtain ⟨k, v⟩ := kv
    by_cases hk : k = key
    · subst hk
      simp [updateJob, lookupJob, Ne.symm h]
    · simp only [updateJob, if_neg hk]
      by_cases hk' : k = key' <;> simp [lookupJob, hk', ih]

@[simp]
theorem lookupJob_mapSet_self (m : List (String × Job)) (key : String)
    (j : Job) : lookupJob (mapSet m key j) key = some j := by
  induction m with
  | nil => simp [mapSet, lookupJob]
  | cons kv rest ih =>
    obtain ⟨k, v⟩ := kv
    by_cases h : k = key <;> simp [mapSet, lookupJob, h, ih]

@[simp]
theorem lookupJob_mapSet_ne (m : List (String × Job)) (key key' : String)
    (j : Job) (h : key' ≠ key) :
    lookupJob (mapSet m key j) key' = lookupJob m key' := by
  induction m with
  | nil => simp [mapSet, lookupJob, Ne.symm h]
  | cons kv rest ih =>
    obtain ⟨k, v⟩ := kv
    by_cases hk : k = key
    · subst hk
      simp [mapSet, lookupJob, Ne.symm h]
    · simp only [mapSet, if_neg hk]
      by_cases hk' : k = key' <;> simp [lookupJob, hk', ih]

@[simp]
theorem setJob_tasks (s : SysState) (k : String) (j : Job) :
    (setJob s k j).tasks = s.tasks := rfl

@[simp]
theorem setJob_nextTimer (s : SysState) (k : String) (j : Job) :
    (setJob s k j).nextTimer = s.nextTimer := rfl

@[simp]
theorem setJob_jobs (s : SysState) (k : String) (j : Job) :
    (setJob s k j).jobs = updateJob s.jobs k j := rfl

@[simp]
theorem findJob_mk (m : List (String × Job)) (t : List Task) (n : Nat)
    (j : String) :
    findJob { jobs := m, tasks := t, nextTimer := n } j = lookupJob m j := rfl

@[simp]
theorem findJob_withTasks (s : SysState) (t : List Task) (j : String) :
    findJob { s with tasks := t } j = findJob s j := rfl

@[simp]
theorem findJob_withTasksTimer (s : SysState) (t : List Task) (n : Nat)
    (j : String) :
    findJob { s with tasks := t, nextTimer := n } j = findJob s j := rfl

@[simp]
theorem findJob_setJob_self (s : SysState) (jobId : String) (j : Job) :
    findJob (setJob s jobId j) jobId = (findJob s jobId).map fun _ => j := by
  simp [findJob, setJob]

@[simp]
theorem findJob_setJob_ne (s : SysState) (jobId j' : String) (j : Job)
    (h : j' ≠ jobId) : findJob (setJob s jobId j) j' = findJob s j' := by
  simp [findJob, setJob, h]

@[simp]
theorem tasksFor_append (j : String) (l1 l2 : List Task) :
    tasksFor j (l1 ++ l2) = tasksFor j l1 ++ tasksFor j l2 := by
  induction l1 with
  | nil => rfl
  | cons p rest ih =>
    by_cases h : p.jobOf = j <;> simp [tasksFor, h, ih]

theorem tasksFor_removeTask_ne (j : String) (l : List Task) (p : Task)
    (h : p.jobOf ≠ j) : tasksFor j (removeTask l p) = tasksFor j l := by
  induction l with
  | nil => rfl
  | cons q rest ih =>
    by_cases hq : q = p
    · subst hq
      simp [removeTask, tasksFor, h]
    · by_cases hj : q.jobOf = j <;> simp [removeTask, tasksFor, hq, hj, ih]

theorem hasTask_false_of_tasksFor_nil (j : String) (l : List Task) (p : Task)
    (hp : p.jobOf = j) (h : tasksFor j l = []) : hasTask l p = false := by
  induction l with
  | nil => rfl
  | cons q rest ih =>
    by_cases hj : q.jobOf = j
    · simp [tasksFor, hj] at h
    · simp only [tasksFor, if_neg hj] at h
      have hq : q ≠ p := fun hqp => hj (hqp ▸ hp)
      simp [hasTask, hq, ih h]

theorem timerOwner_ne_of_tasksFor_nil (j : String) (tid : Nat)
    (l : List Task) (h : tasksFor j l = []) : timerOwner tid l ≠ some j := by
  induction l with
  | nil => simp [timerOwner]
  | cons q rest ih =>
    cases q with
    | triggerWait j' =>
      by_cases hj : j' = j
      · simp [tasksFor, Task.jobOf, hj] at h
      · simp only [tasksFor, Task.jobOf, if_neg hj] at h
        simpa [timerOwner] using ih h
    | pollWait j' =>
      by_cases hj : j' = j
      · simp [tasksFor, Task.jobOf, hj] at h
      · simp only [tasksFor, Task.jobOf, if_neg hj] at h
        simpa [timerOwner] using ih h
    | completeWait j' =>
      by_cases hj : j' = j
      · simp [tasksFor, Task.jobOf, hj] at h
      · simp only [tasksFor, Task.jobOf, if_neg hj] at h
        simpa [timerOwner] using ih h
    | timer t j' =>
      by_cases hj : j' = j
      · simp [tasksFor, Task.jobOf, hj] at h
      · simp only [tasksFor, Task.jobOf, if_neg hj] at h
        by_cases ht : t = tid
        · simp [timerOwner, ht, hj]
        · simpa [timerOwner, ht] using ih h

theorem tasksFor_removeTimer (j : String) (tid : Nat) (l : List Task) :
    tasksFor j (removeTimer tid l) = removeTimer tid (tasksFor j l) := by
  induction l with
  | nil => rfl
  | cons q rest ih =>
    cases q with
    | triggerWait j' =>
      by_cases hj : j' = j <;> simp_all [removeTimer, tasksFor, Task.jobOf]
    | pollWait j' =>
      by_cases hj : j' = j <;> simp_all [removeTimer, tasksFor, Task.jobOf]
    | completeWait j' =>
      by_cases hj : j' = j <;> simp_all [removeTimer, tasksFor, Task.jobOf]
    | timer t j' =>
      by_cases hj : j' = j <;> by_cases ht : t = tid <;>
        simp_all [removeTimer, tasksFor, Task.jobOf]

theorem mem_removeTimer (q : Task) (tid : Nat) (l : List Task)
    (h : q ∈ removeTimer tid l) : q ∈ l ∧ ∀ j, q ≠ .timer tid j := by
  induction l with
  | nil => simp [removeTimer] at h
  | cons p rest ih =>
    match p with
    | .triggerWait j' | .pollWait j' | .completeWait j' =>
      simp only [removeTimer] at h
      rcases List.mem_cons.mp h with h' | h'
      · subst h'
        exact ⟨List.mem_cons_self .., fun j hj => by cases hj⟩
      · exact ⟨List.mem_cons_of_mem _ (ih h').1, (ih h').2⟩
    | .timer t j' =>
      by_cases ht : t = tid
      · subst ht
        simp only [removeTimer, if_pos rfl] at h
        exact ⟨List.mem_cons_of_mem _ (ih h).1, (ih h).2⟩
      · simp only [removeTimer, if_neg ht] at h
        rcases List.mem_cons.mp h with h' | h'
        · subst h'
          exact ⟨List.mem_cons_self ..,
            fun j hj => by cases hj; exact ht rfl⟩
        · exact ⟨List.mem_cons_of_mem _ (ih h').1, (ih h').2⟩

@[simp]
theorem eventsFor_append (j : String) (l1 l2 : List Event) :
    eventsFor j (l1 ++ l2) = eventsFor j l1 ++ eventsFor j l2 := by
  induction l1 with
  | nil => rfl
  | cons e rest ih =>
    by_cases h : e.jobOf = j <;> simp [eventsFor, h, ih]

theorem hasTask_iff_mem (l : List Task) (p : Task) :
    hasTask l p = true ↔ p ∈ l := by
  induction l with
  | nil => simp [hasTask]
  | cons q rest ih =>
    by_cases h : q = p
    · subst h
      simp [hasTask]
    · simp [hasTask, h, ih, Ne.symm h]

/-!
### Compositional descriptions of the source functions
-/

theorem handleJobError_none (s : SysState) (jobId : String) (e : JobError)
    (cb : Bool) (h : findJob s jobId = none) :
    handleJobError s jobId e cb = (s, []) := by
  simp [handleJobError, h]

theorem handleJobError_fst (s : SysState) (jobId : String) (e : JobError)
    (cb : Bool) (job : Job) (hf : findJob s jobId = some job) :
    (handleJobError s jobId e cb).1 =
      setJob s jobId { job with state := .FAILED, error := some e } := by
  by_cases he : job.hasOnError <;> simp [handleJobError, hf, he]

theorem handleJobError_snd (s : SysState) (jobId : String) (e : JobError)
    (cb : Bool) (job : Job) (hf : findJob s jobId = some job) :
    (handleJobError s jobId e cb).2 =
      if job.hasOnError then
        .onErrorCalled jobId e :: (if cb then [.callbackThrew jobId] else [])
      else [] := by
  by_cases he : job.hasOnError <;> simp [handleJobError, hf, he]

theorem executeJobPolling_of_polling (s : SysState) (jobId : String)
    (job : Job) (hf : findJob s jobId = some job)
    (hstate : job.state = .POLLING) :
    executeJobPolling s jobId =
      { jobs := updateJob s.jobs jobId { job with timerId := some s.nextTimer },
        tasks := s.tasks ++ [.timer s.nextTimer jobId],
        nextTimer := s.nextTimer + 1 } := by
  simp [executeJobPolling, hf, hstate, setJob]

theorem executeJobPolling_not_polling (s : SysState) (jobId : String)
    (job : Job) (hf : findJob s jobId = some job)
    (hstate : job.state ≠ .POLLING) :
    executeJobPolling s jobId = s := by
  simp [executeJobPolling, hf, hstate]

theorem executeJobTriggerResume_ok (s : SysState) (jobId : String)
    (cb : Bool) (job : Job) (v : JSValue)
    (hf : findJob s jobId = some job) :
    executeJobTriggerResume s jobId (.ok v) cb =
      (executeJobPolling
        (setJob s jobId { job with triggerResult := some v }) jobId, []) := by
  simp [executeJobTriggerResume, hf]

theorem step_resolveTrigger_eq (cfg : Config) (s : SysState)
    (jobId : String) (o : Except JobError JSValue) (cb : Bool)
    (ht : hasTask s.tasks (.triggerWait jobId) = true) :
    step cfg s (.resolveTrigger jobId o cb) =
      executeJobTriggerResume
        { s with tasks := removeTask s.tasks (.triggerWait jobId) }
        jobId o cb := by
  simp only [step, ht, if_pos]

theorem step_resolvePoll_eq (cfg : Config) (s : SysState) (jobId : String)
    (o : Except JobError PollResponse) (cb : Bool)
    (ht : hasTask s.tasks (.pollWait jobId) = true) :
    step cfg s (.resolvePoll jobId o cb) =
      pollResume cfg
        { s with tasks := removeTask s.tasks (.pollWait jobId) }
        jobId o cb := by
  simp only [step, ht, if_pos]

theorem step_resolveComplete_eq (cfg : Config) (s : SysState)
    (jobId : String) (o : Except JobError JSValue) (cb : Bool)
    (ht : hasTask s.tasks (.completeWait jobId) = true) :
    step cfg s (.resolveComplete jobId o cb) =
      executeJobCompletionResume
        { s with tasks := removeTask s.tasks (.completeWait jobId) }
        jobId o cb := by
  simp only [step, ht, if_pos]

theorem step_fireTimer_eq (cfg : Config) (s : SysState) (jobId : String)
    (tid : Nat) (cb : Bool)
    (ht : timerOwner tid s.tasks = some jobId) :
    step cfg s (.fireTimer tid cb) =
      pollTimerFire { s with tasks := removeTask s.tasks (.timer tid jobId) }
        jobId cb := by
  simp only [step, ht]

theorem executeJobCompletionStart_truthy (s : SysState) (jobId : String)
    (cb : Bool) (job : Job) (v : JSValue)
    (hf : findJob s jobId = some job) (hpr : job.pollResult = some v)
    (htr : v.truthy = true) :
    executeJobCompletionStart s jobId cb =
      ({ s with tasks := s.tasks ++ [.completeWait jobId] },
       [.completeInvoked jobId v]) := by
  simp [executeJobCompletionStart, hf, hpr, htr]

theorem executeJobCompletionResume_ok (s : SysState) (jobId : String)
    (cb : Bool) (job : Job) (w : JSValue)
    (hf : findJob s jobId = some job) :
    (executeJobCompletionResume s jobId (.ok w) cb).1 =
      setJob s jobId { job with finalResult := some w,
                                state := .COMPLETED } ∧
    (executeJobCompletionResume s jobId (.ok w) cb).2 =
      (if job.hasOnComplete then
        .onCompleteCalled jobId w ::
          (if cb then [.callbackThrew jobId] else [])
       else []) := by
  by_cases hc : job.hasOnComplete <;>
    simp [executeJobCompletionResume, hf, hc]

theorem pollResume_done (cfg : Config) (s : SysState) (jobId : String)
    (cb : Bool) (job : Job) (v : JSValue)
    (hf : findJob s jobId = some job) :
    pollResume cfg s jobId (.ok ⟨true, some v⟩) cb =
      executeJobCompletionStart
        (setJob s jobId { job with pollResult := some v }) jobId cb := by
  simp [pollResume, hf]

theorem pollResume_notDone_eq (cfg : Config) (s : SysState)
    (jobId : String) (cb : Bool) (resp : PollResponse) (job : Job)
    (hf : findJob s jobId = some job)
    (hguard : (resp.done && resp.result.isSome) = false)
    (hgt : job.retryCount + 1 > cfg.maxRetryAttempts) :
    pollResume cfg s jobId (.ok resp) cb =
      handleJobError
        (setJob s jobId { job with retryCount := job.retryCount + 1 }) jobId
        (.pollingError (retryMsg cfg.maxRetryAttempts)) cb := by
  simp [pollResume, hf, hguard, hgt, retryMsg]

theorem pollResume_notDone_eq_continue (cfg : Config) (s : SysState)
    (jobId : String) (cb : Bool) (resp : PollResponse) (job : Job)
    (hf : findJob s jobId = some job)
    (hguard : (resp.done && resp.result.isSome) = false)
    (hgt : ¬job.retryCount + 1 > cfg.maxRetryAttempts) :
    pollResume cfg s jobId (.ok resp) cb =
      (executeJobPolling
        (setJob s jobId { job with retryCount := job.retryCount + 1 })
        jobId, []) := by
  simp [pollResume, hf, hguard, hgt]

theorem pollResume_notDone_findJob (cfg : Config) (s : SysState)
    (jobId : String) (cb : Bool) (resp : PollResponse) (job : Job)
    (hf : findJob s jobId = some job)
    (hguard : (resp.done && resp.result.isSome) = false) :
    ∃ job', findJob (pollResume cfg s jobId (.ok resp) cb).1 jobId
        = some job' ∧
      job'.pollResult = job.pollResult ∧
      job'.retryCount = job.retryCount + 1 := by
  have hfl : lookupJob s.jobs jobId = some job := hf
  have hs' : findJob (setJob s jobId
      { job with retryCount := job.retryCount + 1 }) jobId =
      some { job with retryCount := job.retryCount + 1 } := by
    simp [hf]
  by_cases hgt : job.retryCount + 1 > cfg.maxRetryAttempts
  · refine ⟨{ job with retryCount := job.retryCount + 1, state := .FAILED, error := some (.pollingError (retryMsg cfg.maxRetryAttempts)) }, ?_, rfl, rfl⟩
    rw [pollResume_notDone_eq cfg s jobId cb resp job hf hguard hgt,
      handleJobError_fst _ _ _ _ _ hs']
    simp [hf]
  · by_cases hstate : job.state = .POLLING
    · refine ⟨{ job with retryCount := job.retryCount + 1, timerId := some s.nextTimer }, ?_, rfl, rfl⟩
      rw [pollResume_notDone_eq_continue cfg s jobId cb resp job hf hguard hgt]
      rw [executeJobPolling_of_polling _ _ _ hs' (by simp [hstate])]
      simp [findJob, hfl]
    · refine ⟨{ job with retryCount := job.retryCount + 1 }, ?_, rfl, rfl⟩
      rw [pollResume_notDone_eq_continue cfg s jobId cb resp job hf hguard hgt]
      rw [executeJobPolling_not_polling _ _ _ hs' (by simp [hstate])]
      exact hs'

/-!
### Frame lemmas: a step for one job never touches another job, and a
quiescent job is untouched by every step that does not start or abort it
-/

theorem handleJobError_frame (s : SysState) (jobId : String) (e : JobError)
    (cb : Bool) (j : String) (hne : j ≠ jobId) :
    findJob (handleJobError s jobId e cb).1 j = findJob s j ∧
    (handleJobError s jobId e cb).1.tasks = s.tasks ∧
    eventsFor j (handleJobError s jobId e cb).2 = [] := by
  cases hfj : findJob s jobId with
  | none =>
    simp [handleJobError, hfj, eventsFor]
  | some job =>
    refine ⟨?_, ?_, ?_⟩
    · rw [handleJobError_fst _ _ _ _ _ hfj]
      simp [hne]
    · rw [handleJobError_fst _ _ _ _ _ hfj]
      rfl
    · rw [handleJobError_snd _ _ _ _ _ hfj]
      by_cases he : job.hasOnError <;> by_cases c : cb <;>
        simp [he, c, eventsFor, Event.jobOf, Ne.symm hne]

theorem executeJobPolling_frame (s : SysState) (jobId j : String)
    (hne : j ≠ jobId) :
    findJob (executeJobPolling s jobId) j = findJob s j ∧
    tasksFor j (executeJobPolling s jobId).tasks = tasksFor j s.tasks := by
  cases hfj : findJob s jobId with
  | none => simp [executeJobPolling, hfj]
  | some job =>
    by_cases hst : job.state = .POLLING
    · rw [executeJobPolling_of_polling _ _ _ hfj hst]
      constructor
      · simp [findJob, setJob, hne]
      · simp [tasksFor, Task.jobOf, Ne.symm hne]
    · rw [executeJobPolling_not_polling _ _ _ hfj hst]
      exact ⟨rfl, rfl⟩

theorem executeJobTriggerResume_frame (s : SysState) (jobId : String)
    (o : Except JobError JSValue) (cb : Bool) (j : String)
    (hne : j ≠ jobId) :
    findJob (executeJobTriggerResume s jobId o cb).1 j = findJob s j ∧
    tasksFor j (executeJobTriggerResume s jobId o cb).1.tasks =
      tasksFor j s.tasks ∧
    eventsFor j (executeJobTriggerResume s jobId o cb).2 = [] := by
  cases hfj : findJob s jobId with
  | none => simp [executeJobTriggerResume, hfj, eventsFor]
  | some job =>
    cases o with
    | ok v =>
      have hpoll := executeJobPolling_frame
        (setJob s jobId { job with triggerResult := some v }) jobId j hne
      rw [executeJobTriggerResume_ok _ _ _ _ _ hfj]
      refine ⟨?_, ?_, rfl⟩
      · rw [hpoll.1]
        simp [hne]
      · rw [hpoll.2]
        rfl
    | error e =>
      have h := handleJobError_frame s jobId e cb j hne
      simp only [executeJobTriggerResume, hfj]
      exact ⟨h.1, by rw [h.2.1], h.2.2⟩

theorem pollTimerFire_frame (s : SysState) (jobId : String) (cb : Bool)
    (j : String) (hne : j ≠ jobId) :
    findJob (pollTimerFire s jobId cb).1 j = findJob s j ∧
    tasksFor j (pollTimerFire s jobId cb).1.tasks = tasksFor j s.tasks ∧
    eventsFor j (pollTimerFire s jobId cb).2 = [] := by
  cases hfj : findJob s jobId with
  | none => simp [pollTimerFire, hfj, eventsFor]
  | some job =>
    by_cases htr : jsTruthy job.triggerResult
    · simp only [pollTimerFire, hfj, htr, if_pos]
      refine ⟨rfl, ?_, ?_⟩
      · simp [tasksFor, Task.jobOf, Ne.symm hne]
      · simp [eventsFor, Event.jobOf, Ne.symm hne]
    · have h := handleJobError_frame s jobId
        (.pollingError "Trigger result is undefined") cb j hne
      have hred : pollTimerFire s jobId cb =
          handleJobError s jobId
            (.pollingError "Trigger result is undefined") cb := by
        simp [pollTimerFire, hfj, htr]
      rw [hred]
      exact ⟨h.1, by rw [h.2.1], h.2.2⟩

theorem executeJobCompletionStart_frame (s : SysState) (jobId : String)
    (cb : Bool) (j : String) (hne : j ≠ jobId) :
    findJob (executeJobCompletionStart s jobId cb).1 j = findJob s j ∧
    tasksFor j (executeJobCompletionStart s jobId cb).1.tasks =
      tasksFor j s.tasks ∧
    eventsFor j (executeJobCompletionStart s jobId cb).2 = [] := by
  cases hfj : findJob s jobId with
  | none => simp [executeJobCompletionStart, hfj, eventsFor]
  | some job =>
    cases hpr : job.pollResult with
    | none =>
      have h := handleJobError_frame s jobId
        (.pollingError "Poll result is undefined") cb j hne
      simp only [executeJobCompletionStart, hfj, hpr]
      exact ⟨h.1, by rw [h.2.1], h.2.2⟩
    | some u =>
      by_cases htr : u.truthy
      · simp only [executeJobCompletionStart, hfj, hpr, htr, if_pos]
        refine ⟨rfl, ?_, ?_⟩
        · simp [tasksFor, Task.jobOf, Ne.symm hne]
        · simp [eventsFor, Event.jobOf, Ne.symm hne]
      · have h := handleJobError_frame s jobId
          (.pollingError "Poll result is undefined") cb j hne
        have hred : executeJobCompletionStart s jobId cb =
            handleJobError s jobId
              (.pollingError "Poll result is undefined") cb := by
          simp [executeJobCompletionStart, hfj, hpr, htr]
        rw [hred]
        exact ⟨h.1, by rw [h.2.1], h.2.2⟩

theorem executeJobCompletionResume_frame (s : SysState) (jobId : String)
    (o : Except JobError JSValue) (cb : Bool) (j : String)
    (hne : j ≠ jobId) :
    findJob (executeJobCompletionResume s jobId o cb).1 j = findJob s j ∧
    tasksFor j (executeJobCompletionResume s jobId o cb).1.tasks =
      tasksFor j s.tasks ∧
    eventsFor j (executeJobCompletionResume s jobId o cb).2 = [] := by
  cases hfj : findJob s jobId with
  | none => simp [executeJobCompletionResume, hfj, eventsFor]
  | some job =>
    cases o with
    | ok v =>
      have h := executeJobCompletionResume_ok s jobId cb job v hfj
      refine ⟨?_, ?_, ?_⟩
      · rw [h.1]
        simp [hne]
      · rw [h.1]
        rfl
      · rw [h.2]
        by_cases hc : job.hasOnComplete <;> by_cases c : cb <;>
          simp [hc, c, eventsFor, Event.jobOf, Ne.symm hne]
    | error e =>
      have h := handleJobError_frame s jobId e cb j hne
      simp only [executeJobCompletionResume, hfj]
      exact ⟨h.1, by rw [h.2.1], h.2.2⟩

theorem pollResume_frame (cfg : Config) (s : SysState) (jobId : String)
    (o : Except JobError PollResponse) (cb : Bool) (j : String)
    (hne : j ≠ jobId) :
    findJob (pollResume cfg s jobId o cb).1 j = findJob s j ∧
    tasksFor j (pollResume cfg s jobId o cb).1.tasks = tasksFor j s.tasks ∧
    eventsFor j (pollResume cfg s jobId o cb).2 = [] := by
  cases hfj : findJob s jobId with
  | none => simp [pollResume, hfj, eventsFor]
  | some job =>
    cases o with
    | error e =>
      have h := handleJobError_frame s jobId e cb j hne
      simp only [pollResume, hfj]
      exact ⟨h.1, by rw [h.2.1], h.2.2⟩
    | ok resp =>
      by_cases hguard : (resp.done && resp.result.isSome) = true
      · have h := executeJobCompletionStart_frame
          (setJob s jobId { job with pollResult := resp.result }) jobId cb
          j hne
        simp only [pollResume, hfj, hguard, if_pos]
        refine ⟨?_, ?_, h.2.2⟩
        · rw [h.1]
          simp [hne]
        · rw [h.2.1]
          rfl
      · have hguard' : (resp.done && resp.result.isSome) = false := by
          simpa using hguard
        by_cases hgt : job.retryCount + 1 > cfg.maxRetryAttempts
        · rw [pollResume_notDone_eq cfg s jobId cb resp job hfj hguard' hgt]
          have h := handleJobError_frame
            (setJob s jobId { job with retryCount := job.retryCount + 1 })
            jobId (.pollingError (retryMsg cfg.maxRetryAttempts)) cb j hne
          refine ⟨?_, ?_, h.2.2⟩
          · rw [h.1]
            simp [hne]
          · rw [h.2.1]
            rfl
        · rw [pollResume_notDone_eq_continue cfg s jobId cb resp job hfj
            hguard' hgt]
          have h := executeJobPolling_frame
            (setJob s jobId { job with retryCount := job.retryCount + 1 })
            jobId j hne
          refine ⟨?_, ?_, rfl⟩
          · rw [h.1]
            simp [hne]
          · rw [h.2]
            rfl

theorem abortJob_none (s : SysState) (jobId : String)
    (h : findJob s jobId = none) : abortJob s jobId = (s, false, []) := by
  simp [abortJob, h]

theorem abortJob_self (s : SysState) (j : String) (job : Job)
    (hfj : findJob s j = some job) (hq : tasksFor j s.tasks = []) :
    findJob (abortJob s j).1 j = some { job with state := .ABORTED } ∧
    tasksFor j (abortJob s j).1.tasks = [] ∧
    (abortJob s j).2.2 = [] := by
  have hfl : lookupJob s.jobs j = some job := hfj
  cases ht : job.timerId with
  | none =>
    have habs : abortJob s j =
        (setJob s j { job with state := .ABORTED }, true, []) := by
      simp [abortJob, hfj, ht]
    rw [habs]
    exact ⟨by simp [hfj, hfl, ht], hq, rfl⟩
  | some tid =>
    have habs : abortJob s j =
        (setJob { s with tasks := removeTimer tid s.tasks } j { job with state := .ABORTED }, true, []) := by
      simp [abortJob, hfj, ht]
    rw [habs]
    refine ⟨by simp [hfj, hfl, ht], ?_, rfl⟩
    show tasksFor j (removeTimer tid s.tasks) = []
    rw [tasksFor_removeTimer, hq]
    rfl

theorem abortJob_frame_ne (s : SysState) (jobId j : String)
    (hj : j ≠ jobId) (hq : tasksFor j s.tasks = []) :
    findJob (abortJob s jobId).1 j = findJob s j ∧
    tasksFor j (abortJob s jobId).1.tasks = [] ∧
    (abortJob s jobId).2.2 = [] := by
  cases hfj : findJob s jobId with
  | none =>
    rw [abortJob_none s jobId hfj]
    exact ⟨rfl, hq, rfl⟩
  | some job =>
    cases ht : job.timerId with
    | none =>
      have habs : abortJob s jobId =
          (setJob s jobId { job with state := .ABORTED }, true, []) := by
        simp [abortJob, hfj, ht]
      rw [habs]
      exact ⟨by simp [hj], hq, rfl⟩
    | some tid =>
      have habs : abortJob s jobId =
          (setJob { s with tasks := removeTimer tid s.tasks } jobId { job with state := .ABORTED }, true, []) := by
        simp [abortJob, hfj, ht]
      rw [habs]
      refine ⟨by simp [hj, findJob], ?_, rfl⟩
      show tasksFor j (removeTimer tid s.tasks) = []
      rw [tasksFor_removeTimer, hq]
      rfl

/-- The central preservation lemma: a quiescent job (no outstanding
continuation) in state `st` stays quiescent in `st` under every event-loop
turn that does not start it (and does not abort it, unless `st` is already
`ABORTED`), and no event for it is produced. -/
theorem step_preserves_quiescent (cfg : Config) (s : SysState) (j : String)
    (st : JobState) (a : Action) (hq : quiescentAt s j st)
    (hstart : a.isStartOf j = false)
    (habort : st = .ABORTED ∨ a.isAbortOf j = false) :
    quiescentAt (step cfg s a).1 j st ∧
    eventsFor j (step cfg s a).2 = [] := by
  obtain ⟨hstate, htasks⟩ := hq
  cases a with
  | start jobId hc he =>
    have hne : j ≠ jobId := by
      intro h
      subst h
      simp [Action.isStartOf] at hstart
    have hlu : lookupJob (mapSet s.jobs jobId (createJob jobId hc he)) j = findJob s j :=
      lookupJob_mapSet_ne s.jobs jobId j (createJob jobId hc he) hne
    have hframe0 : findJob { s with jobs := mapSet s.jobs jobId (createJob jobId hc he) } j = findJob s j := hlu
    cases hfj : findJob { s with jobs := mapSet s.jobs jobId (createJob jobId hc he) } jobId with
    | none =>
      refine ⟨⟨?_, ?_⟩, ?_⟩ <;>
        simp [step, startJob, executeJobTriggerStart, hfj, hlu, hstate,
          htasks, eventsFor]
    | some job0 =>
      refine ⟨⟨?_, ?_⟩, ?_⟩
      · simp only [step, startJob, executeJobTriggerStart, hfj]
        simp [findJob, setJob, hne, hlu]
        exact Option.map_eq_some'.mp hstate
      · simp only [step, startJob, executeJobTriggerStart, hfj]
        simp [tasksFor, Task.jobOf, Ne.symm hne, htasks]
      · simp only [step, startJob, executeJobTriggerStart, hfj]
        simp [eventsFor, Event.jobOf, Ne.symm hne]
  | abort jobId =>
    by_cases hj : j = jobId
    · have hab : st = .ABORTED := by
        rcases habort with h' | h'
        · exact h'
        · exfalso
          subst hj
          simp [Action.isAbortOf] at h'
      subst hj
      cases hfj : findJob s j with
      | none => simp [hfj] at hstate
      | some job =>
        have h := abortJob_self s j job hfj htasks
        have hst' : job.state = st := by
          rw [hfj] at hstate
          simpa using hstate
        refine ⟨⟨?_, h.2.1⟩, ?_⟩
        · rw [show (step cfg s (.abort j)).1 = (abortJob s j).1 from rfl]
          rw [h.1]
          simp [hab]
        · rw [show (step cfg s (.abort j)).2 = (abortJob s j).2.2 from rfl]
          rw [h.2.2]
          rfl
    · have h := abortJob_frame_ne s jobId j hj htasks
      refine ⟨⟨?_, h.2.1⟩, ?_⟩
      · rw [show (step cfg s (.abort jobId)).1 = (abortJob s jobId).1 from rfl]
        rw [h.1]
        exact hstate
      · rw [show (step cfg s (.abort jobId)).2 = (abortJob s jobId).2.2 from rfl]
        rw [h.2.2]
        rfl
  | resolveTrigger jobId o cb =>
    by_cases hj : j = jobId
    · subst hj
      have hht : hasTask s.tasks (.triggerWait j) = false :=
        hasTask_false_of_tasksFor_nil j s.tasks _ rfl htasks
      simp [step, hht, quiescentAt, hstate, htasks, eventsFor]
    · by_cases hht : hasTask s.tasks (.triggerWait jobId) = true
      · rw [step_resolveTrigger_eq cfg s jobId o cb hht]
        have h := executeJobTriggerResume_frame
          { s with tasks := removeTask s.tasks (.triggerWait jobId) }
          jobId o cb j hj
        refine ⟨⟨?_, ?_⟩, h.2.2⟩
        · rw [h.1]
          simpa using hstate
        · rw [h.2.1]
          simp only []
          rw [tasksFor_removeTask_ne j s.tasks _ (by simp [Task.jobOf, Ne.symm hj])]
          exact htasks
      · have hht' : hasTask s.tasks (.triggerWait jobId) = false := by
          simpa using hht
        simp [step, hht', quiescentAt, hstate, htasks, eventsFor]
  | fireTimer tid cb =>
    cases hown : timerOwner tid s.tasks with
    | none =>
      simp [step, hown, quiescentAt, hstate, htasks, eventsFor]
    | some jobId =>
      have hj : j ≠ jobId := by
        intro h
        subst h
        exact timerOwner_ne_of_tasksFor_nil j tid s.tasks htasks hown
      rw [step_fireTimer_eq cfg s jobId tid cb hown]
      have h := pollTimerFire_frame
        { s with tasks := removeTask s.tasks (.timer tid jobId) } jobId cb
        j hj
      refine ⟨⟨?_, ?_⟩, h.2.2⟩
      · rw [h.1]
        simpa using hstate
      · rw [h.2.1]
        simp only []
        rw [tasksFor_removeTask_ne j s.tasks _ (by simp [Task.jobOf, Ne.symm hj])]
        exact htasks
  | resolvePoll jobId o cb =>
    by_cases hj : j = jobId
    · subst hj
      have hht : hasTask s.tasks (.pollWait j) = false :=
        hasTask_false_of_tasksFor_nil j s.tasks _ rfl htasks
      simp [step, hht, quiescentAt, hstate, htasks, eventsFor]
    · by_cases hht : hasTask s.tasks (.pollWait jobId) = true
      · rw [step_resolvePoll_eq cfg s jobId o cb hht]
        have h := pollResume_frame cfg
          { s with tasks := removeTask s.tasks (.pollWait jobId) }
          jobId o cb j hj
        refine ⟨⟨?_, ?_⟩, h.2.2⟩
        · rw [h.1]
          simpa using hstate
        · rw [h.2.1]
          simp only []
          rw [tasksFor_removeTask_ne j s.tasks _ (by simp [Task.jobOf, Ne.symm hj])]
          exact htasks
      · have hht' : hasTask s.tasks (.pollWait jobId) = false := by
          simpa using hht
        simp [step, hht', quiescentAt, hstate, htasks, eventsFor]
  | resolveComplete jobId o cb =>
    by_cases hj : j = jobId
    · subst hj
      have hht : hasTask s.tasks (.completeWait j) = false :=
        hasTask_false_of_tasksFor_nil j s.tasks _ rfl htasks
      simp [step, hht, quiescentAt, hstate, htasks, eventsFor]
    · by_cases hht : hasTask s.tasks (.completeWait jobId) = true
      · rw [step_resolveComplete_eq cfg s jobId o cb hht]
        have h := executeJobCompletionResume_frame
          { s with tasks := removeTask s.tasks (.completeWait jobId) }
          jobId o cb j hj
        refine ⟨⟨?_, ?_⟩, h.2.2⟩
        · rw [h.1]
          simpa using hstate
        · rw [h.2.1]
          simp only []
          rw [tasksFor_removeTask_ne j s.tasks _ (by simp [Task.jobOf, Ne.symm hj])]
          exact htasks
      · have hht' : hasTask s.tasks (.completeWait jobId) = false := by
          simpa using hht
        simp [step, hht', quiescentAt, hstate, htasks, eventsFor]

/-- `step_preserves_quiescent` lifted to action sequences. -/
theorem run_preserves_quiescent (cfg : Config) (j : String)
    (st : JobState) :
    ∀ (as : List Action) (s : SysState), quiescentAt s j st →
      (∀ a ∈ as, Action.isStartOf a j = false) →
      (st = .ABORTED ∨ ∀ a ∈ as, Action.isAbortOf a j = false) →
      quiescentAt (run cfg s as).1 j st ∧
      eventsFor j (run cfg s as).2 = [] := by
  intro as
  induction as with
  | nil =>
    intro s hq _ _
    exact ⟨hq, rfl⟩
  | cons a rest ih =>
    intro s hq hstart habort
    have h1 := step_preserves_quiescent cfg s j st a hq
      (hstart a (List.mem_cons_self ..))
      (by
        rcases habort with h | h
        · exact Or.inl h
        · exact Or.inr (h a (List.mem_cons_self ..)))
    have h2 := ih (step cfg s a).1 h1.1
      (fun a' ha' => hstart a' (List.mem_cons_of_mem _ ha'))
      (by
        rcases habort with h | h
        · exact Or.inl h
        · exact Or.inr fun a' ha' => h a' (List.mem_cons_of_mem _ ha'))
    refine ⟨h2.1, ?_⟩
    show eventsFor j ((step cfg s a).2 ++ (run cfg (step cfg s a).1 rest).2) = []
    rw [eventsFor_append, h1.2, h2.2]
    rfl

/-!
## Claim theorems
-/

/-- **C10.** A trigger that resolves successfully to a falsy value — here
`0`, `""` and `false` — still stores a defined `triggerResult`, but when
the first poll timer fires, the timer callback's `!job.triggerResult` test
treats it as missing: the job moves to `FAILED` with a `PollingError`
whose message is `Trigger result is undefined`, `pollFn` is never invoked,
and no continuation remains outstanding. -/
theorem C10_falsy_trigger_result_fails_before_poll :
    (getJobState (run cfgD {} [.start "j" true true,
        .resolveTrigger "j" (.ok (.numV 0)) false, .fireTimer 0 false]).1 "j"
        = some .FAILED ∧
      (findJob (run cfgD {} [.start "j" true true,
        .resolveTrigger "j" (.ok (.numV 0)) false, .fireTimer 0 false]).1 "j").map
        Job.error = some (some (.pollingError "Trigger result is undefined")) ∧
      (findJob (run cfgD {} [.start "j" true true,
        .resolveTrigger "j" (.ok (.numV 0)) false, .fireTimer 0 false]).1 "j").map
        Job.triggerResult = some (some (.numV 0)) ∧
      countPollInvocations "j" (run cfgD {} [.start "j" true true,
        .resolveTrigger "j" (.ok (.numV 0)) false, .fireTimer 0 false]).2 = 0 ∧
      (run cfgD {} [.start "j" true true,
        .resolveTrigger "j" (.ok (.numV 0)) false, .fireTimer 0 false]).1.tasks
        = []) ∧
    (getJobState (run cfgD {} [.start "j" true true,
        .resolveTrigger "j" (.ok (.strV "")) false, .fireTimer 0 false]).1 "j"
        = some .FAILED ∧
      countPollInvocations "j" (run cfgD {} [.start "j" true true,
        .resolveTrigger "j" (.ok (.strV "")) false, .fireTimer 0 false]).2 = 0) ∧
    (getJobState (run cfgD {} [.start "j" true true,
        .resolveTrigger "j" (.ok (.boolV false)) false, .fireTimer 0 false]).1 "j"
        = some .FAILED ∧
      countPollInvocations "j" (run cfgD {} [.start "j" true true,
        .resolveTrigger "j" (.ok (.boolV false)) false, .fireTimer 0 false]).2
        = 0) := by
  decide

/-- **C9.** Callback exceptions are contained.  The source wraps the
`onComplete` and `onError` invocations in `try { ... } catch` blocks that
only log; the job's terminal state is assigned *before* the callback runs.
Consequently the system state after the internal execution step is
identical whether or not the callback throws (`cbThrows`), the job ends in
`COMPLETED` (success path) resp. `FAILED` (error path), and the step
returns normally (both embedded functions are total, mirroring the fact
that the exception never escapes the `catch`). -/
theorem C9_callback_exceptions_contained (s : SysState) (jobId : String)
    (job : Job) (hfind : findJob s jobId = some job) :
    (∀ v : JSValue,
      (executeJobCompletionResume s jobId (.ok v) true).1 =
        (executeJobCompletionResume s jobId (.ok v) false).1 ∧
      findJob (executeJobCompletionResume s jobId (.ok v) true).1 jobId =
        some { job with finalResult := some v, state := .COMPLETED }) ∧
    (∀ e : JobError,
      (handleJobError s jobId e true).1 = (handleJobError s jobId e false).1 ∧
      findJob (handleJobError s jobId e true).1 jobId =
        some { job with state := .FAILED, error := some e }) := by
  constructor
  · intro v
    constructor
    · by_cases hc : job.hasOnComplete <;>
        simp [executeJobCompletionResume, hfind, hc]
    · by_cases hc : job.hasOnComplete <;>
        simp [executeJobCompletionResume, hfind, hc]
  · intro e
    constructor
    · by_cases he : job.hasOnError <;> simp [handleJobError, hfind, he]
    · by_cases he : job.hasOnError <;> simp [handleJobError, hfind, he]

/-- Witness for C9 at a concrete one-job state. -/
theorem C9_witness :
    findJob sW "j" = some jW ∧
    findJob (executeJobCompletionResume sW "j" (.ok (.numV 1)) true).1 "j" =
      some { jW with finalResult := some (.numV 1), state := .COMPLETED } :=
  ⟨by decide, ((C9_callback_exceptions_contained sW "j" jW (by decide)).1
    (.numV 1)).2⟩

/-- **C7.** A poll attempt reporting `done` with an `undefined` result is
treated exactly like a "not done" attempt: (1) resuming the poll with
`{done: true, result: undefined}` produces literally the same state and
events as resuming with any response failing `done && result !== undefined`
(the same `else` branch runs: `retryCount` is incremented, counts toward
the ceiling, and the next poll is scheduled); (2) below the ceiling,
the done-without-result resumption increments `retryCount` and schedules a
fresh timer; (3) `pollResult` — the gateway to completion — is only ever
written when both the `done` flag is set and the result is present. -/
theorem C7_done_without_result_is_not_done (cfg : Config) (s : SysState)
    (jobId : String) (cb : Bool) :
    (∀ resp : PollResponse,
      ¬(resp.done = true ∧ resp.result.isSome = true) →
      pollResume cfg s jobId (.ok resp) cb =
        pollResume cfg s jobId (.ok ⟨false, none⟩) cb) ∧
    (∀ job, findJob s jobId = some job → job.state = .POLLING →
      job.retryCount + 1 ≤ cfg.maxRetryAttempts →
      findJob (pollResume cfg s jobId (.ok ⟨true, none⟩) cb).1 jobId =
        some { job with retryCount := job.retryCount + 1,
                        timerId := some s.nextTimer } ∧
      Task.timer s.nextTimer jobId ∈
        (pollResume cfg s jobId (.ok ⟨true, none⟩) cb).1.tasks) ∧
    (∀ (resp : PollResponse) (job job' : Job),
      findJob s jobId = some job →
      findJob (pollResume cfg s jobId (.ok resp) cb).1 jobId = some job' →
      job'.pollResult ≠ job.pollResult →
      resp.done = true ∧ resp.result.isSome = true) := by
  refine ⟨?_, ?_, ?_⟩
  · intro resp hresp
    have hguard : (resp.done && resp.result.isSome) = false := by
      rcases resp with ⟨d, r⟩
      cases d <;> cases r <;> simp_all
    cases hf : findJob s jobId with
    | none => simp [pollResume, hf]
    | some job => simp [pollResume, hf, hguard]
  · intro job hf hstate hle
    have hnot : ¬(job.retryCount + 1 > cfg.maxRetryAttempts) := by omega
    have hfl : lookupJob s.jobs jobId = some job := hf
    constructor
    · simp [pollResume, hf, hnot, executeJobPolling, hstate, findJob, hfl]
    · simp [pollResume, hf, hnot, executeJobPolling, hstate, findJob, hfl]
  · intro resp job job' hf hf' hne
    by_cases hguard : (resp.done && resp.result.isSome) = true
    · simp only [Bool.and_eq_true] at hguard
      exact hguard
    · exfalso
      apply hne
      have hguard' : (resp.done && resp.result.isSome) = false := by
        simpa using hguard
      obtain ⟨job₂, hj2, hpoll, _⟩ :=
        pollResume_notDone_findJob cfg s jobId cb resp job hf hguard'
      rw [hf'] at hj2
      cases hj2
      exact hpoll

/-- Witness for C7 at a concrete one-job state. -/
theorem C7_witness :
    ¬((true : Bool) = true ∧ (Option.none (α := JSValue)).isSome = true) ∧
    pollResume cfgD sW "j" (.ok ⟨true, none⟩) false =
      pollResume cfgD sW "j" (.ok ⟨false, none⟩) false :=
  ⟨by decide, (C7_done_without_result_is_not_done cfgD sW "j" false).1
    ⟨true, none⟩ (by decide)⟩

/-- **C6.** `abortJob`: on an unregistered id it returns `false` and leaves
the whole manager state (registry, tasks, timer counter) unchanged;
on a registered job it clears the job's pending timer (given the
single-timer invariant that any outstanding timer for the job carries the
handle stored in `job.timerId`), forces the state to `ABORTED` regardless
of the prior state, returns `true`, and invokes no callback (it produces
no events at all). -/
theorem C6_abortJob_spec (s : SysState) (jobId : String) :
    (findJob s jobId = none → abortJob s jobId = (s, false, [])) ∧
    (∀ job, findJob s jobId = some job →
      (∀ tid, Task.timer tid jobId ∈ s.tasks → job.timerId = some tid) →
      findJob (abortJob s jobId).1 jobId =
        some { job with state := .ABORTED } ∧
      (abortJob s jobId).2.1 = true ∧
      (abortJob s jobId).2.2 = [] ∧
      ∀ tid, Task.timer tid jobId ∉ (abortJob s jobId).1.tasks) := by
  constructor
  · intro h
    simp [abortJob, h]
  · intro job hf htid
    have hfl : lookupJob s.jobs jobId = some job := hf
    cases ht : job.timerId with
    | none =>
      refine ⟨by simp [abortJob, hf, ht, hfl], by simp [abortJob, hf, ht],
        by simp [abortJob, hf, ht], ?_⟩
      intro tid hmem
      have hmem' : Task.timer tid jobId ∈ s.tasks := by
        simpa [abortJob, hf, ht] using hmem
      have := htid tid hmem'
      rw [ht] at this
      cases this
    | some tid0 =>
      refine ⟨by simp [abortJob, hf, ht, hfl], by simp [abortJob, hf, ht],
        by simp [abortJob, hf, ht], ?_⟩
      intro tid hmem
      have hmem' : Task.timer tid jobId ∈ removeTimer tid0 s.tasks := by
        simpa [abortJob, hf, ht] using hmem
      obtain ⟨hin, hne⟩ := mem_removeTimer _ _ _ hmem'
      have := htid tid hin
      rw [ht] at this
      cases this
      exact hne jobId rfl

/-- Witness for C6 at a concrete one-job state with a pending timer. -/
theorem C6_witness :
    findJob { jobs := [("j", { jW with timerId := some 0 })], tasks := [Task.timer 0 "j"] } "j" = some { jW with timerId := some 0 } ∧
    (∀ tid, Task.timer tid "j" ∈ ({ jobs := [("j", { jW with timerId := some 0 })], tasks := [Task.timer 0 "j"] } : SysState).tasks → ({ jW with timerId := some 0 } : Job).timerId = some tid) ∧
    (abortJob { jobs := [("j", { jW with timerId := some 0 })], tasks := [Task.timer 0 "j"] } "j").2.1 = true :=
  ⟨by decide,
    by
      intro tid hmem
      simp only [List.mem_singleton, Task.timer.injEq] at hmem
      rw [hmem.1],
    ((C6_abortJob_spec { jobs := [("j", { jW with timerId := some 0 })], tasks := [Task.timer 0 "j"] } "j").2 { jW with timerId := some 0 } (by decide)
      (by
        intro tid hmem
        simp only [List.mem_singleton, Task.timer.injEq] at hmem
        rw [hmem.1])).2.1⟩

/-- **C8.** Every stage failure (the trigger, poll or complete `await`
rejecting) moves the job to `FAILED` with the causing error stored on the
job record, and delivers the error only to the job's `onError` callback
(no `onComplete` invocation, nothing thrown to the caller: every embedded
entry point is a total function).  `startJob` always returns the fresh job
id and never fails synchronously. -/
theorem C8_stage_failures_funnel_to_onError (cfg : Config) (s : SysState)
    (jobId : String) (e : JobError) (cb : Bool) (job : Job)
    (hf : findJob s jobId = some job) :
    (hasTask s.tasks (.triggerWait jobId) = true →
      failsWith (step cfg s (.resolveTrigger jobId (.error e) cb))
        jobId job e cb) ∧
    (hasTask s.tasks (.pollWait jobId) = true →
      failsWith (step cfg s (.resolvePoll jobId (.error e) cb))
        jobId job e cb) ∧
    (hasTask s.tasks (.completeWait jobId) = true →
      failsWith (step cfg s (.resolveComplete jobId (.error e) cb))
        jobId job e cb) ∧
    (∀ (s' : SysState) (id : String) (hc he : Bool),
      (startJob s' id hc he).2.1 = id) := by
  have hfl : lookupJob s.jobs jobId = some job := hf
  have hfail : ∀ t : List Task,
      failsWith (handleJobError { s with tasks := t } jobId e cb)
        jobId job e cb := by
    intro t
    have hf2 : findJob { s with tasks := t } jobId = some job := hf
    refine ⟨?_, ?_, ?_⟩
    · rw [handleJobError_fst _ _ _ _ _ hf2]
      simp [hf2]
    · exact handleJobError_snd _ _ _ _ _ hf2
    · intro j2 v hmem
      rw [handleJobError_snd _ _ _ _ _ hf2] at hmem
      by_cases he : job.hasOnError <;> by_cases hcb : cb <;>
        simp [he, hcb] at hmem
  refine ⟨?_, ?_, ?_, ?_⟩
  · intro ht
    simpa [step, ht, executeJobTriggerResume, findJob, hfl] using
      hfail (removeTask s.tasks (.triggerWait jobId))
  · intro ht
    simpa [step, ht, pollResume, findJob, hfl] using
      hfail (removeTask s.tasks (.pollWait jobId))
  · intro ht
    simpa [step, ht, executeJobCompletionResume, findJob, hfl] using
      hfail (removeTask s.tasks (.completeWait jobId))
  · intro s' id hc he
    rfl

/-- Witness for C8 at a concrete one-job state with an in-flight poll. -/
theorem C8_witness :
    findJob { jobs := [("j", jW)], tasks := [Task.pollWait "j"] } "j" = some jW ∧
    hasTask ({ jobs := [("j", jW)], tasks := [Task.pollWait "j"] } : SysState).tasks (.pollWait "j") = true ∧
    failsWith (step cfgD { jobs := [("j", jW)], tasks := [Task.pollWait "j"] } (.resolvePoll "j" (.error (.jsError "boom")) false)) "j" jW (.jsError "boom") false :=
  ⟨by decide, by decide,
    (C8_stage_failures_funnel_to_onError cfgD { jobs := [("j", jW)], tasks := [Task.pollWait "j"] } "j" (.jsError "boom") false jW (by decide)).2.1 (by decide)⟩

/-- **C1 (counterexample).** The claim fails for a *defined but falsy*
poll result.  Trace: trigger resolves to `"t"`, the first poll reports
`{done: true, result: 0}` — `done` with a result that is defined
(`0 !== undefined`).  The poll branch accepts it (`done && result !==
undefined`) and stores `pollResult = 0`, but `executeJobCompletion`'s
`!job.pollResult` falsiness test then throws: the job ends `FAILED` with
`Poll result is undefined`; `completeFn` is never invoked (so "complete
succeeds" could not even be exercised) and no `onComplete` fires. -/
theorem C1_counterexample :
    getJobState (run cfgD {} [.start "j" true true, .resolveTrigger "j" (.ok (.strV "t")) false, .fireTimer 0 false, .resolvePoll "j" (.ok ⟨true, some (.numV 0)⟩) false]).1 "j" = some .FAILED ∧
    (findJob (run cfgD {} [.start "j" true true, .resolveTrigger "j" (.ok (.strV "t")) false, .fireTimer 0 false, .resolvePoll "j" (.ok ⟨true, some (.numV 0)⟩) false]).1 "j").map Job.error = some (some (.pollingError "Poll result is undefined")) ∧
    (findJob (run cfgD {} [.start "j" true true, .resolveTrigger "j" (.ok (.strV "t")) false, .fireTimer 0 false, .resolvePoll "j" (.ok ⟨true, some (.numV 0)⟩) false]).1 "j").map Job.pollResult = some (some (.numV 0)) ∧
    (run cfgD {} [.start "j" true true, .resolveTrigger "j" (.ok (.strV "t")) false, .fireTimer 0 false, .resolvePoll "j" (.ok ⟨true, some (.numV 0)⟩) false]).2 = [.triggerInvoked "j", .pollInvoked "j", .onErrorCalled "j" (.pollingError "Poll result is undefined")] := by
  decide

/-- **C1 (amended).** When the poll reports done with a defined *truthy*
result `v` and the completion then succeeds with `w`, the job moves to
`COMPLETED`, storing `pollResult = v` (at the poll resumption, which
invokes `completeFn v`) and then `finalResult = w`; `onComplete`, when
provided, is invoked with the final result. -/
theorem C1_amended_completion_on_truthy_result (cfg : Config) (s : SysState)
    (jobId : String) (cb cb2 : Bool) (job : Job) (v w : JSValue)
    (hf : findJob s jobId = some job)
    (ht : hasTask s.tasks (.pollWait jobId) = true)
    (htr : v.truthy = true) :
    findJob (step cfg s (.resolvePoll jobId (.ok ⟨true, some v⟩) cb)).1 jobId
      = some { job with pollResult := some v } ∧
    (step cfg s (.resolvePoll jobId (.ok ⟨true, some v⟩) cb)).2
      = [.completeInvoked jobId v] ∧
    hasTask (step cfg s (.resolvePoll jobId (.ok ⟨true, some v⟩) cb)).1.tasks
      (.completeWait jobId) = true ∧
    findJob (step cfg (step cfg s (.resolvePoll jobId (.ok ⟨true, some v⟩) cb)).1 (.resolveComplete jobId (.ok w) cb2)).1 jobId
      = some { job with pollResult := some v, finalResult := some w, state := .COMPLETED } ∧
    (job.hasOnComplete = true →
      Event.onCompleteCalled jobId w ∈
        (step cfg (step cfg s (.resolvePoll jobId (.ok ⟨true, some v⟩) cb)).1 (.resolveComplete jobId (.ok w) cb2)).2) := by
  have hfl : lookupJob s.jobs jobId = some job := hf
  have hf2 : findJob { s with tasks := removeTask s.tasks (.pollWait jobId) } jobId = some job := hf
  have hstep1 : step cfg s (.resolvePoll jobId (.ok ⟨true, some v⟩) cb) =
      ({ jobs := updateJob s.jobs jobId { job with pollResult := some v },
         tasks := removeTask s.tasks (.pollWait jobId) ++ [.completeWait jobId],
         nextTimer := s.nextTimer }, [.completeInvoked jobId v]) := by
    rw [step_resolvePoll_eq cfg s jobId _ cb ht]
    rw [pollResume_done cfg _ jobId cb job v hf2]
    rw [executeJobCompletionStart_truthy _ jobId cb { job with pollResult := some v } v (by simp [hf2]) rfl htr]
    simp [setJob]
  have hj1 : findJob (step cfg s (.resolvePoll jobId (.ok ⟨true, some v⟩) cb)).1 jobId = some { job with pollResult := some v } := by
    rw [hstep1]
    simp [findJob, hfl]
  have htask2 : hasTask (step cfg s (.resolvePoll jobId (.ok ⟨true, some v⟩) cb)).1.tasks (.completeWait jobId) = true := by
    rw [hstep1, hasTask_iff_mem]
    simp
  have hf3 : findJob { (step cfg s (.resolvePoll jobId (.ok ⟨true, some v⟩) cb)).1 with tasks := removeTask (step cfg s (.resolvePoll jobId (.ok ⟨true, some v⟩) cb)).1.tasks (.completeWait jobId) } jobId = some { job with pollResult := some v } := by
    simpa using hj1
  have hstep2 := executeJobCompletionResume_ok
    { (step cfg s (.resolvePoll jobId (.ok ⟨true, some v⟩) cb)).1 with
        tasks := removeTask (step cfg s (.resolvePoll jobId (.ok ⟨true, some v⟩) cb)).1.tasks (.completeWait jobId) }
    jobId cb2 { job with pollResult := some v } w hf3
  refine ⟨hj1, by rw [hstep1], htask2, ?_, ?_⟩
  · rw [step_resolveComplete_eq cfg _ jobId _ cb2 htask2]
    rw [hstep2.1]
    rw [findJob_setJob_self, hf3]
    rfl
  · intro hc
    rw [step_resolveComplete_eq cfg _ jobId _ cb2 htask2]
    rw [hstep2.2]
    simp [hc]

/-- Witness for C1 (amended) at a concrete one-job state. -/
theorem C1_witness :
    findJob { jobs := [("j", jW)], tasks := [Task.pollWait "j"] } "j" = some jW ∧
    hasTask ({ jobs := [("j", jW)], tasks := [Task.pollWait "j"] } : SysState).tasks (.pollWait "j") = true ∧
    (JSValue.numV 42).truthy = true ∧
    findJob (step cfgD (step cfgD { jobs := [("j", jW)], tasks := [Task.pollWait "j"] } (.resolvePoll "j" (.ok ⟨true, some (.numV 42)⟩) false)).1 (.resolveComplete "j" (.ok (.strV "ok")) false)).1 "j" = some { jW with pollResult := some (.numV 42), finalResult := some (.strV "ok"), state := .COMPLETED } :=
  ⟨by decide, by decide, by decide,
    (C1_amended_completion_on_truthy_result cfgD { jobs := [("j", jW)], tasks := [Task.pollWait "j"] } "j" false false jW (.numV 42) (.strV "ok") (by decide) (by decide) (by decide)).2.2.2.1⟩

/-- **C4 (counterexample).** Right after `startJob` returns — before the
trigger has resolved (its `await` is still outstanding) — the job is
observed in `POLLING`, not `PENDING`: `executeJobTrigger` sets
`state = POLLING` synchronously *before* invoking the trigger. -/
theorem C4_counterexample :
    getJobState (run cfgD {} [.start "j" true true]).1 "j" = some .POLLING ∧
    hasTask (run cfgD {} [.start "j" true true]).1.tasks (.triggerWait "j") = true ∧
    (findJob (run cfgD {} [.start "j" true true]).1 "j").map Job.triggerResult = some none := by
  decide

/-- **C4 (amended).** Every job is created by `startJob` as a `PENDING`
record, but `startJob` synchronously begins execution: the job is already
`POLLING` when `startJob` returns, with the trigger still outstanding and
`triggerResult` unset; `triggerResult` is stored when the trigger
resolves successfully (and the poll timer is then scheduled).  `PENDING`
is therefore never observable from outside `startJob`. -/
theorem C4_amended_polling_before_trigger_completes (cfg : Config)
    (s : SysState) (jobId : String) (hc he cb : Bool) (v : JSValue) :
    (createJob jobId hc he).state = .PENDING ∧
    getJobState (startJob s jobId hc he).1 jobId = some .POLLING ∧
    Task.triggerWait jobId ∈ (startJob s jobId hc he).1.tasks ∧
    (findJob (startJob s jobId hc he).1 jobId).map Job.triggerResult
      = some none ∧
    (findJob (step cfg (startJob s jobId hc he).1 (.resolveTrigger jobId (.ok v) cb)).1 jobId).map Job.triggerResult = some (some v) := by
  have hstart : (startJob s jobId hc he).1 =
      { jobs := updateJob (mapSet s.jobs jobId (createJob jobId hc he)) jobId { createJob jobId hc he with state := .POLLING },
        tasks := s.tasks ++ [.triggerWait jobId],
        nextTimer := s.nextTimer } := by
    simp [startJob, executeJobTriggerStart, findJob, setJob]
  refine ⟨rfl, ?_, ?_, ?_, ?_⟩
  · rw [hstart]
    simp [getJobState, findJob]
  · rw [hstart]
    simp
  · rw [hstart]
    simp [findJob, createJob]
  · have hf1 : findJob (startJob s jobId hc he).1 jobId = some { createJob jobId hc he with state := .POLLING } := by
      rw [hstart]
      simp [findJob]
    have ht1 : hasTask (startJob s jobId hc he).1.tasks (.triggerWait jobId) = true := by
      rw [hstart, hasTask_iff_mem]
      simp
    have hf2 : findJob { (startJob s jobId hc he).1 with tasks := removeTask (startJob s jobId hc he).1.tasks (.triggerWait jobId) } jobId = some { createJob jobId hc he with state := .POLLING } := hf1
    rw [step_resolveTrigger_eq cfg _ jobId _ cb ht1]
    rw [executeJobTriggerResume_ok _ jobId cb _ v hf2]
    have hf3 : findJob (setJob { (startJob s jobId hc he).1 with tasks := removeTask (startJob s jobId hc he).1.tasks (.triggerWait jobId) } jobId { { createJob jobId hc he with state := .POLLING } with triggerResult := some v }) jobId = some { { createJob jobId hc he with state := .POLLING } with triggerResult := some v } := by
      rw [findJob_setJob_self, hf2]
      rfl
    rw [executeJobPolling_of_polling _ _ _ hf3 rfl]
    have hfl1 : lookupJob (startJob s jobId hc he).1.jobs jobId = some { createJob jobId hc he with state := .POLLING } := hf1
    simp [hfl1]

/-- Witness for C4 (amended) at a concrete state. -/
theorem C4_witness :
    (createJob "j" true true).state = .PENDING ∧
    getJobState (startJob {} "j" true true).1 "j" = some .POLLING :=
  ⟨(C4_amended_polling_before_trigger_completes cfgD {} "j" true true false (.strV "t")).1,
   (C4_amended_polling_before_trigger_completes cfgD {} "j" true true false (.strV "t")).2.1⟩

/-- **C3 (counterexample).** A job aborted while `POLLING` *with a poll
call in flight* still completes: the timer has fired and `pollFn` is
awaited; `abortJob` flips the state to `ABORTED` (returning `true`), but
when the poll then resolves `{done: true, result: 7}` nothing rechecks the
state — `completeFn` is invoked, and on its resolution the job is set to
`COMPLETED` and `onComplete` is called.  So "never invokes complete or
onComplete afterward" is false for aborts that race an in-flight poll. -/
theorem C3_counterexample :
    getJobState (run cfgD {} [.start "j" true true, .resolveTrigger "j" (.ok (.strV "t")) false, .fireTimer 0 false]).1 "j" = some .POLLING ∧
    (abortJob (run cfgD {} [.start "j" true true, .resolveTrigger "j" (.ok (.strV "t")) false, .fireTimer 0 false]).1 "j").2.1 = true ∧
    getJobState (abortJob (run cfgD {} [.start "j" true true, .resolveTrigger "j" (.ok (.strV "t")) false, .fireTimer 0 false]).1 "j").1 "j" = some .ABORTED ∧
    getJobState (run cfgD (abortJob (run cfgD {} [.start "j" true true, .resolveTrigger "j" (.ok (.strV "t")) false, .fireTimer 0 false]).1 "j").1 [.resolvePoll "j" (.ok ⟨true, some (.numV 7)⟩) false, .resolveComplete "j" (.ok (.strV "done")) false]).1 "j" = some .COMPLETED ∧
    Event.completeInvoked "j" (.numV 7) ∈ (run cfgD (abortJob (run cfgD {} [.start "j" true true, .resolveTrigger "j" (.ok (.strV "t")) false, .fireTimer 0 false]).1 "j").1 [.resolvePoll "j" (.ok ⟨true, some (.numV 7)⟩) false, .resolveComplete "j" (.ok (.strV "done")) false]).2 ∧
    Event.onCompleteCalled "j" (.strV "done") ∈ (run cfgD (abortJob (run cfgD {} [.start "j" true true, .resolveTrigger "j" (.ok (.strV "t")) false, .fireTimer 0 false]).1 "j").1 [.resolvePoll "j" (.ok ⟨true, some (.numV 7)⟩) false, .resolveComplete "j" (.ok (.strV "done")) false]).2 := by
  decide

theorem countPollInvocations_append (j : String) (l1 l2 : List Event) :
    countPollInvocations j (l1 ++ l2) =
      countPollInvocations j l1 + countPollInvocations j l2 := by
  induction l1 with
  | nil => simp [countPollInvocations]
  | cons e rest ih =>
    cases e <;> simp [countPollInvocations, ih] <;> omega

theorem runNotDone_noTimer (cfg : Config) (jobId : String) (k : Nat)
    (s : SysState) (h : timerFor jobId s.tasks = none) :
    runNotDone cfg jobId k s = (s, []) := by
  cases k <;> simp [runNotDone, h]

/-- One "not done" round below the ceiling: the timer fires (`pollFn` is
invoked once), the poll resolves not-done, `retryCount` is incremented and
a fresh timer is scheduled. -/
theorem notDoneRound_continue (cfg : Config) (s : SysState)
    (jobId : String) (tid : Nat) (job : Job)
    (hf : findJob s jobId = some job) (hstate : job.state = .POLLING)
    (htr : jsTruthy job.triggerResult = true)
    (htasks : s.tasks = [.timer tid jobId])
    (hlt : ¬job.retryCount + 1 > cfg.maxRetryAttempts) :
    (step cfg (step cfg s (.fireTimer tid false)).1
        (.resolvePoll jobId (.ok ⟨false, none⟩) false)).2 = [] ∧
    (step cfg s (.fireTimer tid false)).2 = [.pollInvoked jobId] ∧
    findJob (step cfg (step cfg s (.fireTimer tid false)).1
        (.resolvePoll jobId (.ok ⟨false, none⟩) false)).1 jobId =
      some { job with retryCount := job.retryCount + 1,
                      timerId := some s.nextTimer } ∧
    (step cfg (step cfg s (.fireTimer tid false)).1
        (.resolvePoll jobId (.ok ⟨false, none⟩) false)).1.tasks =
      [.timer s.nextTimer jobId] := by
  have hown : timerOwner tid s.tasks = some jobId := by
    simp [htasks, timerOwner]
  have hfl : lookupJob s.jobs jobId = some job := hf
  have hstep1 : step cfg s (.fireTimer tid false) =
      ({ s with tasks := [.pollWait jobId] }, [.pollInvoked jobId]) := by
    rw [step_fireTimer_eq cfg s jobId tid false hown]
    simp [pollTimerFire, htasks, removeTask, hfl, htr, findJob]
  have ht2 : hasTask (step cfg s (.fireTimer tid false)).1.tasks
      (.pollWait jobId) = true := by
    rw [hstep1]
    simp [hasTask]
  have hf2 : findJob { (step cfg s (.fireTimer tid false)).1 with tasks := removeTask (step cfg s (.fireTimer tid false)).1.tasks (.pollWait jobId) } jobId = some job := by
    rw [hstep1]
    simpa using hf
  have hstep2 : step cfg (step cfg s (.fireTimer tid false)).1
      (.resolvePoll jobId (.ok ⟨false, none⟩) false) =
      (executeJobPolling (setJob { (step cfg s (.fireTimer tid false)).1 with tasks := removeTask (step cfg s (.fireTimer tid false)).1.tasks (.pollWait jobId) } jobId { job with retryCount := job.retryCount + 1 }) jobId, []) := by
    rw [step_resolvePoll_eq cfg _ jobId _ false ht2]
    rw [pollResume_notDone_eq_continue cfg _ jobId false _ job hf2 (by simp) hlt]
  have hf3 : findJob (setJob { (step cfg s (.fireTimer tid false)).1 with tasks := removeTask (step cfg s (.fireTimer tid false)).1.tasks (.pollWait jobId) } jobId { job with retryCount := job.retryCount + 1 }) jobId = some { job with retryCount := job.retryCount + 1 } := by
    rw [findJob_setJob_self, hf2]
    rfl
  refine ⟨by rw [hstep2], by rw [hstep1], ?_, ?_⟩
  · rw [hstep2]
    simp only []
    rw [executeJobPolling_of_polling _ _ _ hf3 (by simp [hstate])]
    simp [hstep1, findJob, hfl]
  · rw [hstep2]
    simp only []
    rw [executeJobPolling_of_polling _ _ _ hf3 (by simp [hstate])]
    simp [hstep1, removeTask]

/-- One "not done" round at the ceiling: the timer fires (`pollFn`
invoked once), the poll resolves not-done, `retryCount` exceeds the
ceiling and the job fails with the synthesized retry-ceiling error; no
timer remains. -/
theorem notDoneRound_fail (cfg : Config) (s : SysState)
    (jobId : String) (tid : Nat) (job : Job)
    (hf : findJob s jobId = some job)
    (htr : jsTruthy job.triggerResult = true)
    (htasks : s.tasks = [.timer tid jobId])
    (hgt : job.retryCount + 1 > cfg.maxRetryAttempts) :
    countPollInvocations jobId
      (step cfg (step cfg s (.fireTimer tid false)).1
        (.resolvePoll jobId (.ok ⟨false, none⟩) false)).2 = 0 ∧
    (step cfg s (.fireTimer tid false)).2 = [.pollInvoked jobId] ∧
    findJob (step cfg (step cfg s (.fireTimer tid false)).1
        (.resolvePoll jobId (.ok ⟨false, none⟩) false)).1 jobId =
      some { job with retryCount := job.retryCount + 1, state := .FAILED,
                      error := some (.pollingError (retryMsg cfg.maxRetryAttempts)) } ∧
    (step cfg (step cfg s (.fireTimer tid false)).1
        (.resolvePoll jobId (.ok ⟨false, none⟩) false)).1.tasks = [] := by
  have hown : timerOwner tid s.tasks = some jobId := by
    simp [htasks, timerOwner]
  have hfl : lookupJob s.jobs jobId = some job := hf
  have hstep1 : step cfg s (.fireTimer tid false) =
      ({ s with tasks := [.pollWait jobId] }, [.pollInvoked jobId]) := by
    rw [step_fireTimer_eq cfg s jobId tid false hown]
    simp [pollTimerFire, htasks, removeTask, hfl, htr, findJob]
  have ht2 : hasTask (step cfg s (.fireTimer tid false)).1.tasks
      (.pollWait jobId) = true := by
    rw [hstep1]
    simp [hasTask]
  have hf2 : findJob { (step cfg s (.fireTimer tid false)).1 with tasks := removeTask (step cfg s (.fireTimer tid false)).1.tasks (.pollWait jobId) } jobId = some job := by
    rw [hstep1]
    simpa using hf
  have hf2' : findJob (setJob { (step cfg s (.fireTimer tid false)).1 with tasks := removeTask (step cfg s (.fireTimer tid false)).1.tasks (.pollWait jobId) } jobId { job with retryCount := job.retryCount + 1 }) jobId = some { job with retryCount := job.retryCount + 1 } := by
    rw [findJob_setJob_self, hf2]
    rfl
  have hstep2 : step cfg (step cfg s (.fireTimer tid false)).1
      (.resolvePoll jobId (.ok ⟨false, none⟩) false) =
      handleJobError (setJob { (step cfg s (.fireTimer tid false)).1 with tasks := removeTask (step cfg s (.fireTimer tid false)).1.tasks (.pollWait jobId) } jobId { job with retryCount := job.retryCount + 1 }) jobId (.pollingError (retryMsg cfg.maxRetryAttempts)) false := by
    rw [step_resolvePoll_eq cfg _ jobId _ false ht2]
    rw [pollResume_notDone_eq cfg _ jobId false _ job hf2 (by simp) hgt]
  refine ⟨?_, by rw [hstep1], ?_, ?_⟩
  · rw [hstep2, handleJobError_snd _ _ _ _ _ hf2']
    by_cases he : job.hasOnError <;> simp [he, countPollInvocations]
  · rw [hstep2, handleJobError_fst _ _ _ _ _ hf2']
    rw [findJob_setJob_self, hf2']
    rfl
  · rw [hstep2, handleJobError_fst _ _ _ _ _ hf2']
    simp [hstep1, removeTask]

/-- Exhausting the retry ceiling: from a `POLLING` job with a truthy
trigger result, `retryCount + m = N` and exactly its own timer
outstanding, `m + 1` further "not done" polls fail the job with the
retry-ceiling error, leaving no outstanding continuation. -/
theorem runNotDone_exhausts (cfg : Config) (jobId : String) :
    ∀ (m k : Nat) (s : SysState) (tid : Nat) (job : Job),
      findJob s jobId = some job →
      job.state = .POLLING →
      jsTruthy job.triggerResult = true →
      job.retryCount + m = cfg.maxRetryAttempts →
      s.tasks = [.timer tid jobId] →
      m + 1 ≤ k →
      ∃ job',
        findJob (runNotDone cfg jobId k s).1 jobId = some job' ∧
        job'.state = .FAILED ∧
        job'.error = some (.pollingError (retryMsg cfg.maxRetryAttempts)) ∧
        job'.retryCount = cfg.maxRetryAttempts + 1 ∧
        (runNotDone cfg jobId k s).1.tasks = [] ∧
        countPollInvocations jobId (runNotDone cfg jobId k s).2 = m + 1 := by
  intro m
  induction m with
  | zero =>
    intro k s tid job hf hstate htr hretry htasks hk
    obtain ⟨k', rfl⟩ : ∃ k', k = k' + 1 := ⟨k - 1, by omega⟩
    have htf : timerFor jobId s.tasks = some tid := by
      simp [htasks, timerFor]
    have hgt : job.retryCount + 1 > cfg.maxRetryAttempts := by omega
    obtain ⟨hcount2, hev1, hfind2, htasks2⟩ :=
      notDoneRound_fail cfg s jobId tid job hf htr htasks hgt
    have hrest : runNotDone cfg jobId k'
        (step cfg (step cfg s (.fireTimer tid false)).1
          (.resolvePoll jobId (.ok ⟨false, none⟩) false)).1 =
        ((step cfg (step cfg s (.fireTimer tid false)).1
          (.resolvePoll jobId (.ok ⟨false, none⟩) false)).1, []) := by
      apply runNotDone_noTimer
      rw [htasks2]
      rfl
    refine ⟨{ job with retryCount := job.retryCount + 1, state := .FAILED, error := some (.pollingError (retryMsg cfg.maxRetryAttempts)) }, ?_, rfl, rfl, ?_, ?_, ?_⟩
    · show findJob (runNotDone cfg jobId (k' + 1) s).1 jobId = _
      rw [runNotDone, htf]
      simp only []
      rw [hrest]
      exact hfind2
    · show job.retryCount + 1 = cfg.maxRetryAttempts + 1
      omega
    · rw [runNotDone, htf]
      simp only []
      rw [hrest]
      exact htasks2
    · rw [runNotDone, htf]
      simp only []
      rw [hrest]
      simp [countPollInvocations_append, hev1, hcount2, countPollInvocations]
  | succ m' ih =>
    intro k s tid job hf hstate htr hretry htasks hk
    obtain ⟨k', rfl⟩ : ∃ k', k = k' + 1 := ⟨k - 1, by omega⟩
    have htf : timerFor jobId s.tasks = some tid := by
      simp [htasks, timerFor]
    have hlt : ¬job.retryCount + 1 > cfg.maxRetryAttempts := by omega
    obtain ⟨hev2, hev1, hfind2, htasks2⟩ :=
      notDoneRound_continue cfg s jobId tid job hf hstate htr htasks hlt
    obtain ⟨job', hj', h1, h2, h3, h4, h5⟩ := ih k'
      (step cfg (step cfg s (.fireTimer tid false)).1
        (.resolvePoll jobId (.ok ⟨false, none⟩) false)).1
      s.nextTimer
      { job with retryCount := job.retryCount + 1,
                 timerId := some s.nextTimer }
      hfind2 (by simp [hstate]) (by simpa using htr) (by simp; omega)
      htasks2 (by omega)
    refine ⟨job', ?_, h1, h2, h3, ?_, ?_⟩
    · rw [runNotDone, htf]
      simp only []
      exact hj'
    · rw [runNotDone, htf]
      simp only []
      exact h4
    · rw [runNotDone, htf]
      simp only []
      rw [countPollInvocations_append, countPollInvocations_append]
      rw [hev1, hev2, h5]
      simp [countPollInvocations]
      omega

/-- The state right after `startJob` and a successful trigger resolution,
on a manager with no outstanding continuations: the job is `POLLING` with
`triggerResult = v`, `retryCount = 0`, and exactly its first poll timer
outstanding; no poll has been invoked yet. -/
theorem startJob_trigger_ok_char (cfg : Config) (s : SysState)
    (jobId : String) (hc he cb : Bool) (v : JSValue)
    (htasks : s.tasks = []) :
    findJob (step cfg (startJob s jobId hc he).1 (.resolveTrigger jobId (.ok v) cb)).1 jobId =
      some { createJob jobId hc he with state := .POLLING, triggerResult := some v, timerId := some s.nextTimer } ∧
    (step cfg (startJob s jobId hc he).1 (.resolveTrigger jobId (.ok v) cb)).1.tasks = [.timer s.nextTimer jobId] ∧
    (step cfg (startJob s jobId hc he).1 (.resolveTrigger jobId (.ok v) cb)).2 = [] ∧
    (startJob s jobId hc he).2.2 = [.triggerInvoked jobId] := by
  have hstart : (startJob s jobId hc he).1 =
      { jobs := updateJob (mapSet s.jobs jobId (createJob jobId hc he)) jobId { createJob jobId hc he with state := .POLLING },
        tasks := [.triggerWait jobId],
        nextTimer := s.nextTimer } := by
    simp [startJob, executeJobTriggerStart, findJob, setJob, htasks]
  have hf1 : findJob (startJob s jobId hc he).1 jobId = some { createJob jobId hc he with state := .POLLING } := by
    rw [hstart]
    simp [findJob]
  have ht1 : hasTask (startJob s jobId hc he).1.tasks (.triggerWait jobId) = true := by
    rw [hstart, hasTask_iff_mem]
    simp
  have hf2 : findJob { (startJob s jobId hc he).1 with tasks := removeTask (startJob s jobId hc he).1.tasks (.triggerWait jobId) } jobId = some { createJob jobId hc he with state := .POLLING } := hf1
  have hstep : step cfg (startJob s jobId hc he).1 (.resolveTrigger jobId (.ok v) cb) =
      (executeJobPolling (setJob { (startJob s jobId hc he).1 with tasks := removeTask (startJob s jobId hc he).1.tasks (.triggerWait jobId) } jobId { { createJob jobId hc he with state := .POLLING } with triggerResult := some v }) jobId, []) := by
    rw [step_resolveTrigger_eq cfg _ jobId _ cb ht1]
    rw [executeJobTriggerResume_ok _ jobId cb _ v hf2]
  have hf3 : findJob (setJob { (startJob s jobId hc he).1 with tasks := removeTask (startJob s jobId hc he).1.tasks (.triggerWait jobId) } jobId { { createJob jobId hc he with state := .POLLING } with triggerResult := some v }) jobId = some { { createJob jobId hc he with state := .POLLING } with triggerResult := some v } := by
    rw [findJob_setJob_self, hf2]
    rfl
  have hnt : (setJob { (startJob s jobId hc he).1 with tasks := removeTask (startJob s jobId hc he).1.tasks (.triggerWait jobId) } jobId { { createJob jobId hc he with state := .POLLING } with triggerResult := some v }).nextTimer = s.nextTimer := by
    rw [hstart]
    rfl
  have hts : (setJob { (startJob s jobId hc he).1 with tasks := removeTask (startJob s jobId hc he).1.tasks (.triggerWait jobId) } jobId { { createJob jobId hc he with state := .POLLING } with triggerResult := some v }).tasks = [] := by
    rw [hstart]
    simp [removeTask]
  refine ⟨?_, ?_, by rw [hstep], by simp [startJob, executeJobTriggerStart, findJob, setJob, htasks]⟩
  · rw [hstep]
    simp only []
    rw [executeJobPolling_of_polling _ _ _ hf3 rfl]
    have hfj : lookupJob (startJob s jobId hc he).1.jobs jobId = some { createJob jobId hc he with state := .POLLING } := hf1
    rw [hnt]
    simp [hfj]
  · rw [hstep]
    simp only []
    rw [executeJobPolling_of_polling _ _ _ hf3 rfl]
    simp [hstart, removeTask]

/-- **C2.** With `maxRetryAttempts = N` and a poll that always reports
"not done", `pollFn` is invoked exactly `N + 1` times in total (the
driver `runNotDone` is given fuel `k ≥ N + 1`, so any further rounds would
be possible — none happens because no timer is left): on the `(N+1)`-th
invocation `retryCount` reaches `N + 1 > N`, the job transitions to
`FAILED` with the synthesized `Exceeded maximum retry attempts (N)`
error, and no further poll is scheduled (no continuation of any kind
remains outstanding for the job). -/
theorem C2_retry_ceiling_exact_polls (cfg : Config) (s : SysState)
    (jobId : String) (hc he : Bool) (v : JSValue) (k : Nat)
    (htasks : s.tasks = []) (htr : v.truthy = true)
    (hk : cfg.maxRetryAttempts + 1 ≤ k) :
    ∃ job',
      findJob (notDoneScenario cfg s jobId hc he v k).1 jobId = some job' ∧
      job'.state = .FAILED ∧
      job'.error = some (.pollingError (retryMsg cfg.maxRetryAttempts)) ∧
      job'.retryCount = cfg.maxRetryAttempts + 1 ∧
      (notDoneScenario cfg s jobId hc he v k).1.tasks = [] ∧
      countPollInvocations jobId (notDoneScenario cfg s jobId hc he v k).2 =
        cfg.maxRetryAttempts + 1 := by
  obtain ⟨hf1, hts1, hev1, hev0⟩ :=
    startJob_trigger_ok_char cfg s jobId hc he false v htasks
  obtain ⟨job', hj', h1, h2, h3, h4, h5⟩ :=
    runNotDone_exhausts cfg jobId cfg.maxRetryAttempts k
      (step cfg (startJob s jobId hc he).1 (.resolveTrigger jobId (.ok v) false)).1
      s.nextTimer
      { createJob jobId hc he with state := .POLLING, triggerResult := some v, timerId := some s.nextTimer }
      hf1 rfl (by simpa [jsTruthy] using htr) (by simp [createJob]) hts1 hk
  refine ⟨job', hj', h1, h2, h3, h4, ?_⟩
  show countPollInvocations jobId
    ((startJob s jobId hc he).2.2 ++
      (step cfg (startJob s jobId hc he).1 (.resolveTrigger jobId (.ok v) false)).2 ++
      (runNotDone cfg jobId k (step cfg (startJob s jobId hc he).1 (.resolveTrigger jobId (.ok v) false)).1).2) = _
  rw [countPollInvocations_append, countPollInvocations_append]
  rw [hev0, hev1, h5]
  simp [countPollInvocations]

/-- Witness for C2 with `maxRetryAttempts = 2` and fuel `3`. -/
theorem C2_witness :
    (({} : SysState).tasks = [] ∧ (JSValue.strV "t").truthy = true ∧
      ({ pollingInterval := 5000, maxRetryAttempts := 2 } : Config).maxRetryAttempts + 1 ≤ 3) ∧
    (∃ job',
      findJob (notDoneScenario { pollingInterval := 5000, maxRetryAttempts := 2 } {} "j" true true (.strV "t") 3).1 "j" = some job' ∧
      job'.state = .FAILED ∧
      job'.error = some (.pollingError (retryMsg 2)) ∧
      job'.retryCount = 3 ∧
      (notDoneScenario { pollingInterval := 5000, maxRetryAttempts := 2 } {} "j" true true (.strV "t") 3).1.tasks = [] ∧
      countPollInvocations "j" (notDoneScenario { pollingInterval := 5000, maxRetryAttempts := 2 } {} "j" true true (.strV "t") 3).2 = 3) :=
  ⟨⟨rfl, rfl, by decide⟩,
    C2_retry_ceiling_exact_polls { pollingInterval := 5000, maxRetryAttempts := 2 } {} "j" true true (.strV "t") 3 rfl rfl (by decide)⟩

theorem abortJob_returns_true (s : SysState) (j : String) (job : Job)
    (hf : findJob s j = some job) : (abortJob s j).2.1 = true := by
  cases ht : job.timerId <;> simp [abortJob, hf, ht]

theorem abortJob_self_timer (s : SysState) (j : String) (job : Job)
    (tid : Nat) (hf : findJob s j = some job)
    (htf : tasksFor j s.tasks = [.timer tid j])
    (htid : job.timerId = some tid) :
    findJob (abortJob s j).1 j = some { job with state := .ABORTED } ∧
    tasksFor j (abortJob s j).1.tasks = [] ∧
    (abortJob s j).2.2 = [] := by
  have hfl : lookupJob s.jobs j = some job := hf
  have habs : abortJob s j =
      (setJob { s with tasks := removeTimer tid s.tasks } j { job with state := .ABORTED }, true, []) := by
    simp [abortJob, hf, htid]
  rw [habs]
  refine ⟨by simp [hf, hfl, htid], ?_, rfl⟩
  show tasksFor j (removeTimer tid s.tasks) = []
  rw [tasksFor_removeTimer, htf]
  simp [removeTimer]

theorem isInternal_not_start_abort (a : Action) (j : String)
    (h : a.isInternal = true) :
    a.isStartOf j = false ∧ a.isAbortOf j = false := by
  cases a <;> simp_all [Action.isInternal, Action.isStartOf, Action.isAbortOf]

/-- **C3 (amended).** A job aborted while `PENDING` or `POLLING` *with no
trigger, poll or complete call in flight* (idle, or waiting between polls
with only its scheduled timer outstanding) never has `completeFn` or
`onComplete` invoked afterwards, and no further poll timer fires: after
the abort succeeds (`true`), under any subsequent sequence of event-loop
turns that does not start a new job under the same id, the job stays
`ABORTED` and no event at all is produced for it — in particular no
`completeInvoked`, `onCompleteCalled` or `pollInvoked` event.  (If a poll
or complete call *is* in flight at abort time, its resumption can still
complete the job — see the counterexample.) -/
theorem C3_amended_abort_idle_job (cfg : Config) (s : SysState)
    (j : String) (job : Job) (as : List Action)
    (hf : findJob s j = some job)
    (hstate : job.state = .PENDING ∨ job.state = .POLLING)
    (hidle : tasksFor j s.tasks = [] ∨
      ∃ tid, tasksFor j s.tasks = [.timer tid j] ∧ job.timerId = some tid)
    (hstart : ∀ a ∈ as, Action.isStartOf a j = false) :
    (abortJob s j).2.1 = true ∧
    (findJob (run cfg (abortJob s j).1 as).1 j).map Job.state
      = some .ABORTED ∧
    eventsFor j (run cfg (abortJob s j).1 as).2 = [] := by
  have hq' : quiescentAt (abortJob s j).1 j .ABORTED := by
    rcases hidle with h0 | ⟨tid, htf, htid⟩
    · obtain ⟨h1, h2, _⟩ := abortJob_self s j job hf h0
      exact ⟨by rw [h1]; rfl, h2⟩
    · obtain ⟨h1, h2, _⟩ := abortJob_self_timer s j job tid hf htf htid
      exact ⟨by rw [h1]; rfl, h2⟩
  have h := run_preserves_quiescent cfg j .ABORTED as (abortJob s j).1 hq'
    hstart (Or.inl rfl)
  exact ⟨abortJob_returns_true s j job hf, h.1.1, h.2⟩

/-- Witness for C3 (amended): a `POLLING` job waiting between polls, with
a timer-fire attempt afterwards (which finds no timer and does nothing). -/
theorem C3_witness :
    findJob { jobs := [("j", { jW with timerId := some 0 })], tasks := [Task.timer 0 "j"] } "j" = some { jW with timerId := some 0 } ∧
    ({ jW with timerId := some 0 } : Job).state = .POLLING ∧
    tasksFor "j" ({ jobs := [("j", { jW with timerId := some 0 })], tasks := [Task.timer 0 "j"] } : SysState).tasks = [Task.timer 0 "j"] ∧
    Action.isStartOf (.fireTimer 0 false) "j" = false ∧
    ((abortJob { jobs := [("j", { jW with timerId := some 0 })], tasks := [Task.timer 0 "j"] } "j").2.1 = true ∧
      (findJob (run cfgD (abortJob { jobs := [("j", { jW with timerId := some 0 })], tasks := [Task.timer 0 "j"] } "j").1 [.fireTimer 0 false]).1 "j").map Job.state = some .ABORTED ∧
      eventsFor "j" (run cfgD (abortJob { jobs := [("j", { jW with timerId := some 0 })], tasks := [Task.timer 0 "j"] } "j").1 [.fireTimer 0 false]).2 = []) :=
  ⟨by decide, by decide, by decide, by decide,
    C3_amended_abort_idle_job cfgD { jobs := [("j", { jW with timerId := some 0 })], tasks := [Task.timer 0 "j"] } "j" { jW with timerId := some 0 } [.fireTimer 0 false]
      (by decide) (Or.inr (by decide))
      (Or.inr ⟨0, by decide, by decide⟩)
      (by intro a ha; simp at ha; subst ha; rfl)⟩

/-- **C5 (amended).** A job in a terminal state (`COMPLETED`, `FAILED`
or `ABORTED`) *with no outstanding continuation* — which is how the chain
of internal steps always leaves a job it completes or fails — is never
changed by any sequence of internal execution steps (trigger / poll /
completion resumptions, timer firings, for any job), and no event is
produced for it; the only operation that moves a job out of a terminal
state is an explicit `abortJob`, which forces `ABORTED`.  (A job that was
aborted while a call was in flight is *not* quiescent: the resumption of
that call can overwrite `ABORTED` — see the counterexample.) -/
theorem C5_amended_terminal_quiescent_stable (cfg : Config) (s : SysState)
    (j : String) (st : JobState) (as : List Action)
    (hterm : st = .COMPLETED ∨ st = .FAILED ∨ st = .ABORTED)
    (hq : quiescentAt s j st)
    (hintern : ∀ a ∈ as, Action.isInternal a = true) :
    (findJob (run cfg s as).1 j).map Job.state = some st ∧
    eventsFor j (run cfg s as).2 = [] := by
  have h := run_preserves_quiescent cfg j st as s hq
    (fun a ha => (isInternal_not_start_abort a j (hintern a ha)).1)
    (Or.inr fun a ha => (isInternal_not_start_abort a j (hintern a ha)).2)
  exact ⟨h.1.1, h.2⟩

/-- Witness for C5 (amended): a `COMPLETED` job survives a timer firing
and a poll resumption for another id unchanged. -/
theorem C5_witness :
    (JobState.COMPLETED = JobState.COMPLETED ∨ JobState.COMPLETED = .FAILED ∨ JobState.COMPLETED = .ABORTED) ∧
    quiescentAt { jobs := [("j", { jW with state := .COMPLETED })] } "j" .COMPLETED ∧
    (∀ a ∈ [Action.fireTimer 0 false, Action.resolvePoll "k" (.ok ⟨true, some (.numV 1)⟩) false], Action.isInternal a = true) ∧
    (findJob (run cfgD { jobs := [("j", { jW with state := .COMPLETED })] } [Action.fireTimer 0 false, Action.resolvePoll "k" (.ok ⟨true, some (.numV 1)⟩) false]).1 "j").map Job.state = some .COMPLETED :=
  ⟨Or.inl rfl, ⟨by decide, rfl⟩,
    by intro a ha; simp at ha; rcases ha with h | h <;> subst h <;> rfl,
    (C5_amended_terminal_quiescent_stable cfgD { jobs := [("j", { jW with state := .COMPLETED })] } "j" .COMPLETED [Action.fireTimer 0 false, Action.resolvePoll "k" (.ok ⟨true, some (.numV 1)⟩) false]
      (Or.inl rfl) ⟨by decide, rfl⟩
      (by intro a ha; simp at ha; rcases ha with h | h <;> subst h <;> rfl)).1⟩

/-- **C5 (counterexample).** A terminal state can be left by an internal
execution step: abort a job while its trigger is in flight (`ABORTED`,
terminal); when the trigger then rejects, the `catch` in
`executeJobTrigger` calls `handleJobError`, which unconditionally sets
`state = FAILED` — an internal error-handling step moved the job out of
`ABORTED` without any abort call. -/
theorem C5_counterexample :
    getJobState (abortJob (run cfgD {} [.start "j" false true]).1 "j").1 "j" = some .ABORTED ∧
    getJobState (step cfgD (abortJob (run cfgD {} [.start "j" false true]).1 "j").1 (.resolveTrigger "j" (.error (.jsError "boom")) false)).1 "j" = some .FAILED := by
  decide

end PollingSvc
